import Mathlib

/-!
Verification of the plugin-instance app manager
(`chris_backend/plugininstances/services/manager.py`).

The development shallowly embeds `PluginInstanceManager`'s orchestration
logic: the normalized-status serializer, the status reconciler, the
FS-plugin input-dir ("squash") resolution, the job submission's input
resolution, the zip archive builder, and the compressed JSON blob encoder.

External collaborators that are not part of the embedded module (the
SwiftManager blob-store client and the job record) are modelled at the
interface the spec gives for them; every such definition carries a doc
comment saying so.
-/

namespace ChrisManager

/-! ## Python string primitives used by manager.py -/

/-- The characters Python's `str.split()` / `str.strip()` treat as
whitespace (space, tab, linefeed, carriage return, vertical tab, form feed). -/
def pyIsSpace (c : Char) : Bool :=
  c = ' ' || c = '\t' || c = '\n' || c = '\r' || c = '\x0b' || c = '\x0c'

/-- Python `''.join(s.split())`: remove every whitespace character
(manager.py lines 427 and 434). -/
def stripAllWS (s : String) : String :=
  String.mk (s.data.filter (fun c => !pyIsSpace c))

/-- Python `s.strip()`: remove leading and trailing whitespace. -/
def pyStrip (s : String) : String :=
  String.mk (((s.data.dropWhile pyIsSpace).reverse.dropWhile pyIsSpace).reverse)

/-- Python `s.lstrip(c)` for a single strip character `c`. -/
def pyLstrip (c : Char) (s : String) : String :=
  String.mk (s.data.dropWhile (fun d => d = c))

/-- `posixpath.join a b` for the shapes manager.py uses (`b` is a relative
path there): absolute `b` wins; otherwise the parts are glued with a single
`'/'` unless `a` is empty or already ends in `'/'`. -/
def pyPathJoin (a b : String) : String :=
  if b.data.head? = some '/' then b
  else if a = "" then b
  else if a.data.getLast? = some '/' then a ++ b
  else a ++ "/" ++ b

/-- `posixpath.dirname p`: the text before the final `'/'`, with trailing
slashes stripped from that head unless the head consists only of slashes. -/
def pyDirname (p : String) : String :=
  let headRev := p.data.reverse.dropWhile (fun c => c ≠ '/')
  if headRev.isEmpty then ""
  else if headRev.all (fun c => c = '/') then String.mk headRev.reverse
  else String.mk (headRev.dropWhile (fun c => c = '/')).reverse

/-- Helper for Python's `needle in hay` on strings: does `needle` occur as a
contiguous sublist of the character list? -/
def listContainsSublist (needle : List Char) : List Char → Bool
  | [] => needle.isEmpty
  | c :: rest => needle.isPrefixOf (c :: rest) || listContainsSublist needle rest

/-- Python `needle in hay` for strings. -/
def strContains (hay needle : String) : Bool :=
  listContainsSublist needle.data hay.data

/-- `p` is a prefix of `s` (computed on the character lists). -/
def strIsPrefixOf (p s : String) : Bool :=
  p.data.isPrefixOf s.data

/-! ## Status responses and the normalized status string -/

/-- The per-phase status values inside a pfcon status response's
`jobOperationSummary` field: `pushPath.status`, `compute.submit.status`,
`compute.return.status`, `pullPath.status`, `swiftPut.status`
(the fields read by manager.py lines 419-436). -/
structure JobOperationSummary where
  pushPath : String
  computeSubmit : String
  computeReturn : String
  pullPath : String
  swiftPut : String
deriving DecidableEq, Repr

/-- `d_response['jobOperationSummary'][action]['status']` for the
non-compute phases of the serializer loop. -/
def simpleStatus (d : JobOperationSummary) : String → String
  | "pushPath" => d.pushPath
  | "pullPath" => d.pullPath
  | "swiftPut" => d.swiftPut
  | _ => ""

/-- `d_response['jobOperationSummary']['compute'][part]['status']` for the
compute sub-phases of the serializer loop. -/
def computeStatus (d : JobOperationSummary) : String → String
  | "submit" => d.computeSubmit
  | _ => d.computeReturn

/-- `serialize_app_response_status` (manager.py lines 419-436), the pure
string-building part: loop over `['pushPath','compute','pullPath','swiftPut']`,
expand `'compute'` into its `'submit'`/`'return'` sub-parts, strip all
whitespace from each status value and append `<phase>:<status>;`. -/
def serialize_app_response_status (d : JobOperationSummary) : String :=
  (["pushPath", "compute", "pullPath", "swiftPut"]).foldl
    (fun acc action =>
      if action = "compute" then
        (["submit", "return"]).foldl
          (fun acc2 part =>
            acc2 ++ (action ++ "." ++ part ++ ":" ++
              stripAllWS (computeStatus d part) ++ ";"))
          acc
      else
        acc ++ (action ++ ":" ++ stripAllWS (simpleStatus d action) ++ ";"))
    ""

/-- The slice of a pfcon status response that
`check_plugin_instance_app_exec_status` consumes: the per-phase summary, the
two serialized blobs it persists (`json.dumps` of `jobOperationSummary` and
`json_zipToStr` of `jobOperation`), and the `jobOperation.info.swiftPut`
substructure forwarded to output registration. -/
structure StatusResponse where
  summary : JobOperationSummary
  summaryBlob : String
  rawBlob : String
  swiftPutState : String
deriving DecidableEq, Repr

/-- The job-record fields that `check_plugin_instance_app_exec_status`
reads or writes. Modelled from the spec: the `PluginInstance` Django model
(plugininstances/models.py) is not under src/; the spec's Job data model
(§3) gives status, summary/raw blobs and the end timestamp. -/
structure JobRecord where
  status : String
  summary : String
  raw : String
  endDateSet : Bool
deriving DecidableEq, Repr

/-- Observable side effects of one reconciliation call: a call to
`register_output_files`, a write of `end_date`, a call to
`handle_app_remote_error`. -/
inductive Ev where
  | registerOutputFiles
  | endDateWrite
  | invokeErrorCollector
deriving DecidableEq, Repr

/-- `check_plugin_instance_app_exec_status` (manager.py lines 244-283):
serialize the response status (which persists the summary and raw blobs as a
side effect, lines 414-417); if the normalized string contains
`'swiftPut:True'` and the DB status is not already `'finishedSuccessfully'`,
register output files, set the terminal status and the end date; finally,
if the normalized string *equals* `'finishedWithError'`, invoke the error
collector. -/
def check_plugin_instance_app_exec_status (inst : JobRecord) (resp : StatusResponse) :
    JobRecord × List Ev :=
  let str_responseStatus := serialize_app_response_status resp.summary
  let inst1 : JobRecord := { inst with summary := resp.summaryBlob, raw := resp.rawBlob }
  let step3 :=
    if strContains str_responseStatus "swiftPut:True" = true ∧
        inst1.status ≠ "finishedSuccessfully" then
      ({ inst1 with status := "finishedSuccessfully", endDateSet := true },
       [Ev.registerOutputFiles, Ev.endDateWrite])
    else (inst1, ([] : List Ev))
  if str_responseStatus = "finishedWithError" then
    (step3.1, step3.2 ++ [Ev.invokeErrorCollector])
  else step3

/-! ## The Blob Store (SwiftManager) collaborator -/

/-- Modelled from the spec: the Blob Store state behind
`core/swiftmanager.py`'s `SwiftManager` (not under src/). §6 specifies the
consumed interface (`exists`, `listByPrefix`, `upload`, `download`); the
store is an association list from object key to content. -/
structure SwiftState where
  objs : List (String × String)
deriving DecidableEq, Repr

/-- Modelled from the spec: §6/§7 say every Blob Store operation may fail with
a storage-client error (`ClientException`); which call raises is captured by
per-path fault flags, one per operation kind. -/
structure SwiftFaults where
  pathExistsFails : String → Bool
  objExistsFails : String → Bool
  uploadFails : String → Bool
  lsFails : String → Bool
  downloadFails : String → Bool

/-- Modelled from the spec: `SwiftManager.obj_exists` — the exact object key
is present in the store. -/
def SwiftState.objExists (st : SwiftState) (p : String) : Bool :=
  st.objs.any (fun kv => kv.1 = p)

/-- Modelled from the spec: `SwiftManager.path_exists` — some stored object
key extends the queried path (`exists(path) -> bool`, §6). -/
def SwiftState.pathExists (st : SwiftState) (p : String) : Bool :=
  st.objs.any (fun kv => strIsPrefixOf p kv.1)

/-- Modelled from the spec: `SwiftManager.upload_obj` — store content under a
key, replacing any previous object at that key. -/
def SwiftState.upload (st : SwiftState) (p content : String) : SwiftState :=
  ⟨st.objs.filter (fun kv => kv.1 ≠ p) ++ [(p, content)]⟩

/-- Content stored at a key, if any (the success result of
`SwiftManager.download_obj`). -/
def SwiftState.lookup (st : SwiftState) (p : String) : Option String :=
  (st.objs.find? (fun kv => kv.1 = p)).map (fun kv => kv.2)

/-- Modelled from the spec: `SwiftManager.ls` — `listByPrefix` (§6): all
stored object keys extending the queried prefix. -/
def SwiftState.ls (st : SwiftState) (p : String) : List String :=
  (st.objs.filter (fun kv => strIsPrefixOf p kv.1)).map (fun kv => kv.1)

/-- Blob Store calls issued during input resolution (for stating that a
code path performs, or does not perform, a given storage operation). -/
inductive SwiftEv where
  | pathExistsCheck (p : String)
  | objExistsCheck (p : String)
  | uploadObj (p : String)
deriving DecidableEq, Repr

/-! ## FS-plugin input-dir resolution (the squash fallback) -/

/-- The squash block of `manage_app_service_fsplugin_inputdir`
(manager.py lines 381-392): `try: if not obj_exists(squashFile): upload`
`except ClientException: log` `else: str_inputdir = dirname(squashFile)`.
The `else:` clause of the `try` runs only when no exception was raised, so
on a storage-client error the function keeps (and returns) the trimmed
original `str_inputdir` instead of the squash directory. -/
def squashBlock (st : SwiftState) (f : SwiftFaults) (str_inputdir squashFile squashMsg : String)
    (evs : List SwiftEv) : String × SwiftState × List SwiftEv :=
  if f.objExistsFails squashFile then
    (str_inputdir, st, evs ++ [SwiftEv.objExistsCheck squashFile])
  else if st.objExists squashFile = false then
    if f.uploadFails squashFile then
      (str_inputdir, st,
        evs ++ [SwiftEv.objExistsCheck squashFile, SwiftEv.uploadObj squashFile])
    else
      (pyDirname squashFile, st.upload squashFile squashMsg,
        evs ++ [SwiftEv.objExistsCheck squashFile, SwiftEv.uploadObj squashFile])
  else
    (pyDirname squashFile, st, evs ++ [SwiftEv.objExistsCheck squashFile])

/-- `manage_app_service_fsplugin_inputdir` (manager.py lines 323-392):
trim the inputdir (`strip()` then `lstrip('.')`); if non-empty, check it in
swift — a `ClientException` returns it as-is (fail open), an existing path
returns it as-is, a missing one squashes with the invalid-dir message;
an empty trimmed inputdir squashes with `'Empty input dir.'`.
`dataDir` is `self.data_dir` (`~/data`, set in `__init__`, line 80).
Returns the resolved inputdir, the updated store, and the storage calls
made. -/
def manage_app_service_fsplugin_inputdir (st : SwiftState) (f : SwiftFaults)
    (dataDir inputdir : String) : String × SwiftState × List SwiftEv :=
  let str_inputdir := pyLstrip '.' (pyStrip inputdir)
  if str_inputdir ≠ "" then
    if f.pathExistsFails str_inputdir then
      (str_inputdir, st, [SwiftEv.pathExistsCheck str_inputdir])
    else if st.pathExists str_inputdir then
      (str_inputdir, st, [SwiftEv.pathExistsCheck str_inputdir])
    else
      squashBlock st f str_inputdir
        (pyLstrip '/' (pyPathJoin dataDir "squashInvalidDir/squashInvalidDir.txt"))
        "Path specified in object storage does not exist!"
        [SwiftEv.pathExistsCheck str_inputdir]
  else
    squashBlock st f str_inputdir
      (pyLstrip '/' (pyPathJoin dataDir "squashEmptyDir/squashEmptyDir.txt"))
      "Empty input dir."
      []

/-! ## Job submission: argument vector and input resolution -/

/-- A declared plugin parameter spec (`db_param` in manager.py: name,
type tag, action kind, command-line flag). -/
structure ParamSpec where
  name : String
  type : String
  action : String
  flag : String
deriving DecidableEq, Repr

/-- A submitted parameter value (`parameter_dict` values): Python strings,
booleans and integers as used by `store` / `store_true` / `store_false`
parameters. -/
inductive PyParamVal where
  | str (s : String)
  | bool (b : Bool)
  | int (n : Int)
deriving DecidableEq, Repr

/-- Python truthiness of a submitted parameter value
(`if param_value` / `if not param_value`, manager.py lines 118-121). -/
def pyTruthy : PyParamVal → Bool
  | PyParamVal.str s => s ≠ ""
  | PyParamVal.bool b => b
  | PyParamVal.int n => n ≠ 0

/-- Python `str(v)` for a submitted parameter value (manager.py line 153). -/
def pyStrOfVal : PyParamVal → String
  | PyParamVal.str s => s
  | PyParamVal.bool b => if b then "True" else "False"
  | PyParamVal.int n => toString n

/-- The plugin descriptor fields read by `run_plugin_instance_app`. Modelled
from the spec: the `Plugin` Django model (plugins/models.py) is not under
src/; §3's Plugin Descriptor gives type tag, executable path/name, shell
wrapper, container image, and ordered parameter specs. -/
structure PluginRec where
  metaType : String
  selfpath : String
  selfexec : String
  execshell : String
  dockImage : String
  parameters : List ParamSpec
deriving DecidableEq, Repr

/-- The plugin-instance fields read by `run_plugin_instance_app`. Modelled
from the spec: the `PluginInstance` Django model is not under src/;
`previousOutputPath` stands for `previous.get_output_path()` when a
`previous` job exists, and `outputPath` for `get_output_path()` (the
output-path contract, §4.1). -/
structure InstanceRec where
  id : Nat
  plugin : PluginRec
  previousOutputPath : Option String
  outputPath : String
  owner : String
  computeResourceName : String
  numberOfWorkers : Nat
  cpuLimit : Nat
  memoryLimit : Nat
  gpuLimit : Nat
deriving DecidableEq, Repr

/-- One step of the parameter loop (manager.py lines 104-122): find the
first declared spec whose name matches the submitted name (`break` after the
first hit; unmatched names are silently ignored); `store` appends the flag
and the value — with the value replaced by the app-container input dir and
the name recorded for `unextpath`/`path` typed parameters; `store_true` /
`store_false` append the flag according to truthiness. The accumulator is
`(app_args, path_param_names, unextpath_param_names)`. -/
def paramStep (db : List ParamSpec) (inputMount : String)
    (acc : List String × List String × List String) (q : String × PyParamVal) :
    List String × List String × List String :=
  match db.find? (fun p => p.name = q.1) with
  | none => acc
  | some p =>
    let (args, pathNames, unextNames) := acc
    if p.action = "store" then
      let value := pyStrOfVal q.2
      let (value, unextNames) :=
        if p.type = "unextpath" then (inputMount, unextNames ++ [q.1])
        else (value, unextNames)
      let (value, pathNames) :=
        if p.type = "path" then (inputMount, pathNames ++ [q.1])
        else (value, pathNames)
      (args ++ [p.flag, value], pathNames, unextNames)
    else if p.action = "store_true" ∧ pyTruthy q.2 then
      (args ++ [p.flag], pathNames, unextNames)
    else if p.action = "store_false" ∧ ¬pyTruthy q.2 then
      (args ++ [p.flag], pathNames, unextNames)
    else acc

/-- The full parameter loop over the submitted `parameter_dict`, in
submission (dict insertion) order. -/
def processParams (db : List ParamSpec) (inputMount : String)
    (pdict : List (String × PyParamVal)) :
    List String × List String × List String :=
  pdict.foldl (paramStep db inputMount) ([], [], [])

/-- `path_param_names` as accumulated by the parameter loop. -/
def pathParamNames (db : List ParamSpec) (pdict : List (String × PyParamVal)) :
    List String :=
  (processParams db "/share/incoming" pdict).2.1

/-- The pre-squash input location for a job without a `previous` job
(manager.py line 148): `parameter_dict[path_param_names[-1]]` if any path
parameter was collected, else the empty string. -/
def preSquashInputdir (db : List ParamSpec) (pdict : List (String × PyParamVal)) :
    String :=
  match (pathParamNames db pdict).getLast? with
  | some n =>
    match pdict.find? (fun q => q.1 = n) with
    | some q => pyStrOfVal q.2
    | none => ""
  | none => ""

/-- The fields of the Command Envelope (`d_msg`, manager.py lines 163-241)
that carry job-specific content: `meta-data.localSource.path`,
`meta-data.localTarget.path`, `meta-compute.cmd`, `meta-compute.jid`,
`meta-compute.auid`, resource limits coerced to strings, container image,
and the compute service name. -/
structure Envelope where
  sourcePath : String
  targetPath : String
  cmd : String
  jid : String
  auid : String
  numberOfWorkers : String
  cpuLimit : String
  memoryLimit : String
  gpuLimit : String
  image : String
  service : String
deriving DecidableEq, Repr

/-- `run_plugin_instance_app` (manager.py lines 85-242): build the argument
vector (input mount first for `ds` plugins, then output mount and the two
metadata flags, then the processed parameters); resolve the input dir —
`previous.get_output_path()` when a `previous` job exists (line 145,
unconditionally, no squash), else the last collected path parameter value
run through `manage_app_service_fsplugin_inputdir` (lines 148-149); then
assemble the Command Envelope. Returns the envelope, the updated store and
the storage calls made. -/
def run_plugin_instance_app (st : SwiftState) (f : SwiftFaults) (dataDir : String)
    (inst : InstanceRec) (pdict : List (String × PyParamVal)) :
    Envelope × SwiftState × List SwiftEv :=
  let plugin := inst.plugin
  let inputMount := "/share/incoming"
  let outputMount := "/share/outgoing"
  let str_job_id := "chris-jid-" ++ toString inst.id
  let head := (if plugin.metaType = "ds" then [inputMount] else []) ++
    [outputMount, "--saveinputmeta", "--saveoutputmeta"]
  let (paramArgs, _, _) := processParams plugin.parameters inputMount pdict
  let app_args := head ++ paramArgs
  let (str_inputdir, st', evs) :=
    match inst.previousOutputPath with
    | some p => (p, st, ([] : List SwiftEv))
    | none =>
      manage_app_service_fsplugin_inputdir st f dataDir
        (preSquashInputdir plugin.parameters pdict)
  let str_exec := pyPathJoin plugin.selfpath plugin.selfexec
  let str_cmd := str_exec ++ " " ++ String.intercalate " " app_args
  let envelope : Envelope :=
    { sourcePath := str_inputdir
      targetPath := inst.outputPath
      cmd := plugin.execshell ++ " " ++ str_cmd
      jid := str_job_id
      auid := inst.owner
      numberOfWorkers := toString inst.numberOfWorkers
      cpuLimit := toString inst.cpuLimit
      memoryLimit := toString inst.memoryLimit
      gpuLimit := toString inst.gpuLimit
      image := plugin.dockImage
      service := inst.computeResourceName }
  (envelope, st', evs)

/-! ## The archive builder -/

/-- The outcome of `create_zip_file`: the Python return value (the function
body has no `return` statement, so it is `None`, modelled as
`returnValue := none`), the path the zip file is written at, and the
`(key, bytes)` entries written into the archive, in order. -/
structure ZipOutcome where
  returnValue : Option String
  zipfilePath : String
  entries : List (String × String)
deriving DecidableEq, Repr

/-- The inner object loop of `create_zip_file` (manager.py lines 493-500):
for each listed object, try to download it — a `ClientException` is only
logged — and then unconditionally `writestr(obj_path, contents)`: the
`writestr` call sits *outside* the `try`/`except`, so after a failed
download it writes the `contents` left over from the last successful
download, and raises `UnboundLocalError` if no download has succeeded yet
(`contents` is then unbound). `contents` is threaded as an `Option`
(`none` = not yet bound). -/
def zipObjLoop (st : SwiftState) (f : SwiftFaults) :
    List String → Option String → List (String × String) →
    Except String (Option String × List (String × String))
  | [], contents, entries => Except.ok (contents, entries)
  | obj :: rest, contents, entries =>
    let contents' :=
      if f.downloadFails obj ∨ (st.lookup obj).isNone then contents
      else st.lookup obj
    match contents' with
    | none => Except.error "UnboundLocalError: contents"
    | some cs => zipObjLoop st f rest contents' (entries ++ [(obj, cs)])

/-- The outer prefix loop of `create_zip_file` (manager.py lines 485-500):
`l_ls = []` then `try: l_ls = ls(swift_path) except ClientException: log`,
so a failed listing leaves `l_ls` empty and the prefix is skipped. -/
def zipPathLoop (st : SwiftState) (f : SwiftFaults) :
    List String → Option String → List (String × String) →
    Except String (Option String × List (String × String))
  | [], contents, entries => Except.ok (contents, entries)
  | swiftPath :: rest, contents, entries =>
    let l_ls := if f.lsFails swiftPath then [] else st.ls swiftPath
    match zipObjLoop st f l_ls contents entries with
    | Except.error e => Except.error e
    | Except.ok (c', es') => zipPathLoop st f rest c' es'

/-- `create_zip_file` (manager.py lines 471-500): write a zip at
`os.path.join(data_dir, str_job_id + '.zip')` from the objects listed under
the given swift path prefixes, skipping failed listings. The Python
function falls off the end of its body, so its return value is `None`. -/
def create_zip_file (st : SwiftState) (f : SwiftFaults) (dataDir jobId : String)
    (swiftPaths : List String) : Except String ZipOutcome :=
  let zipfilePath := pyPathJoin dataDir (jobId ++ ".zip")
  match zipPathLoop st f swiftPaths none [] with
  | Except.error e => Except.error e
  | Except.ok (_, es) =>
    Except.ok { returnValue := none, zipfilePath := zipfilePath, entries := es }

/-- Does a submitted parameter name select a `'store'`-action, `'path'`-typed
spec, under the code's matching rule (first declared spec with that name)? -/
def isStorePath (db : List ParamSpec) (n : String) : Bool :=
  match db.find? (fun p => p.name = n) with
  | some p => p.action = "store" && p.type = "path"
  | none => false

/-- The claim's reading of §4.1 step 2: the value of the last *declared*
`path`-typed parameter that is present in the submitted values (ordering by
declaration, not by submission). Stated from the spec's words, for
comparison against `preSquashInputdir`. -/
def specLastDeclaredPathValue (db : List ParamSpec)
    (pdict : List (String × PyParamVal)) : String :=
  match (db.filter
      (fun p => p.type = "path" && (pdict.find? (fun q => q.1 = p.name)).isSome)).getLast? with
  | some p =>
    match pdict.find? (fun q => q.1 = p.name) with
    | some q => pyStrOfVal q.2
    | none => ""
  | none => ""

/-- The corrected reading: the value of the last parameter *in submission
order* whose first matching declared spec has action `'store'` and type
`'path'`, or the empty string if there is none. Stated independently of the
code's fold, for comparison against `preSquashInputdir`. -/
def specLastSubmittedPathValue (db : List ParamSpec)
    (pdict : List (String × PyParamVal)) : String :=
  match (pdict.filter (fun q => isStorePath db q.1)).getLast? with
  | some q => pyStrOfVal q.2
  | none => ""

/-! ## JSON values and `json.dumps` (for `json_zipToStr`) -/

/-- The opening curly brace character (0x7b). -/
def lbrace : Char := Char.ofNat 123

/-- The closing curly brace character (0x7d). -/
def rbrace : Char := Char.ofNat 125

/-- A Python dict key as accepted by `json.dumps`: a string, or an int
(coerced to its decimal string by the serializer). -/
inductive PyKey where
  | str (s : String)
  | int (n : Int)
deriving DecidableEq, Repr

/-- A JSON-serializable Python value (the `jobOperation` structures passed
to `json_zipToStr`): `None`, booleans, ints, strings, lists and dicts.
Floats are outside the embedding. -/
inductive PyVal where
  | none
  | bool (b : Bool)
  | int (n : Int)
  | str (s : String)
  | list (items : List PyVal)
  | dict (items : List (PyKey × PyVal))
deriving Repr

/-- Decimal digits of `n` (most significant first), accumulator-style;
the fuel argument bounds the division chain. -/
def natDecimalGo : Nat → Nat → List Char → List Char
  | 0, _, acc => acc
  | fuel + 1, n, acc =>
    if n = 0 then acc
    else natDecimalGo fuel (n / 10) (Char.ofNat (48 + n % 10) :: acc)

/-- Decimal representation of a natural number. -/
def natDecimal (n : Nat) : List Char :=
  if n = 0 then ['0'] else natDecimalGo n n []

/-- Python `repr(int)`: optional minus sign followed by decimal digits. -/
def pyIntRepr (n : Int) : List Char :=
  if n < 0 then '-' :: natDecimal (-n).toNat else natDecimal n.toNat

/-- The `i`-th lowercase hex digit. -/
def hexDigitChar (n : Nat) : Char :=
  if n < 10 then Char.ofNat (48 + n) else Char.ofNat (87 + n)

/-- Four lowercase hex digits of `n < 0x10000` (the `\\uXXXX` payload). -/
def toHex4 (n : Nat) : List Char :=
  [hexDigitChar (n / 4096 % 16), hexDigitChar (n / 256 % 16),
   hexDigitChar (n / 16 % 16), hexDigitChar (n % 16)]

/-- `json.dumps`'s default (`ensure_ascii=True`) escaping of one character:
two-character escapes for quote, backslash and the C0 control shorthands,
`\\uXXXX` for other controls and all non-ASCII code points (surrogate pairs
above `0xFFFF`), the character itself otherwise. -/
def escapeChar (c : Char) : List Char :=
  if c = '"' then ['\\', '"']
  else if c = '\\' then ['\\', '\\']
  else if c = '\x08' then ['\\', 'b']
  else if c = '\x0c' then ['\\', 'f']
  else if c = '\n' then ['\\', 'n']
  else if c = '\r' then ['\\', 'r']
  else if c = '\t' then ['\\', 't']
  else if c.toNat < 0x20 ∨ 0x7e < c.toNat then
    if c.toNat < 0x10000 then '\\' :: 'u' :: toHex4 c.toNat
    else
      ('\\' :: 'u' :: toHex4 (0xd800 + (c.toNat - 0x10000) / 1024)) ++
      ('\\' :: 'u' :: toHex4 (0xdc00 + (c.toNat - 0x10000) % 1024))
  else [c]

/-- Escape a whole string body. -/
def escapeString (l : List Char) : List Char :=
  l.foldr (fun c acc => escapeChar c ++ acc) []

/-- A serialized dict key: int keys are coerced to their decimal string
(`json.dumps({1: 'a'}) == '{"1": "a"}'`), then quoted like any string. -/
def jsonDumpsKey : PyKey → List Char
  | PyKey.str s => '"' :: (escapeString s.data ++ ['"'])
  | PyKey.int n => '"' :: (escapeString (pyIntRepr n) ++ ['"'])

mutual
/-- `json.dumps` with its default separators `(', ', ': ')` and
`ensure_ascii=True`, as the character list of the produced text. -/
def jsonDumpsData : PyVal → List Char
  | PyVal.none => ['n', 'u', 'l', 'l']
  | PyVal.bool true => ['t', 'r', 'u', 'e']
  | PyVal.bool false => ['f', 'a', 'l', 's', 'e']
  | PyVal.int n => pyIntRepr n
  | PyVal.str s => '"' :: (escapeString s.data ++ ['"'])
  | PyVal.list items => '[' :: (jsonDumpsItems items ++ [']'])
  | PyVal.dict items => lbrace :: (jsonDumpsEntries items ++ [rbrace])

/-- List items joined by `', '`. -/
def jsonDumpsItems : List PyVal → List Char
  | [] => []
  | [v] => jsonDumpsData v
  | v :: rest => jsonDumpsData v ++ ',' :: ' ' :: jsonDumpsItems rest

/-- Dict entries `key: value` joined by `', '`. -/
def jsonDumpsEntries : List (PyKey × PyVal) → List Char
  | [] => []
  | [(k, v)] => jsonDumpsKey k ++ ':' :: ' ' :: jsonDumpsData v
  | (k, v) :: rest =>
    jsonDumpsKey k ++ ':' :: ' ' :: jsonDumpsData v ++ ',' :: ' ' :: jsonDumpsEntries rest
end

/-- `json.dumps(v)` as a string. -/
def json_dumps (v : PyVal) : String :=
  String.mk (jsonDumpsData v)

/-! ## The byte pipeline of `json_zipToStr` -/

/-- `.encode('utf-8')` for the ASCII-only output of `json.dumps` with its
default `ensure_ascii=True`: on ASCII text, UTF-8 is the code-point
sequence itself. -/
def utf8AsciiEncode (l : List Char) : List Nat :=
  l.map (fun c => c.toNat)

/-- Inverse of `utf8AsciiEncode` on ASCII bytes. -/
def utf8AsciiDecode (l : List Nat) : List Char :=
  l.map (fun n => Char.ofNat n)

/-- Modelled from the spec: `zlib.compress`. The DEFLATE codec is external
to the repository (§4.3 only calls the persisted blob "compressed+encoded");
it is modelled as the identity byte transformation, which keeps the one
property the round-trip claim uses: `zlibDecompress` inverts it
losslessly. -/
def zlibCompress (l : List Nat) : List Nat := l

/-- Modelled from the spec: `zlib.decompress`, the inverse of
`zlibCompress`. -/
def zlibDecompress (l : List Nat) : List Nat := l

/-- The RFC 4648 base64 alphabet. -/
def b64Alphabet : List Char :=
  "ABCDEFGHIJKLMNOPQRSTUVWXYZabcdefghijklmnopqrstuvwxyz0123456789+/".data

/-- The base64 character for a 6-bit group. -/
def b64Char (n : Nat) : Char :=
  b64Alphabet.getD n '?'

/-- Position of a character in the base64 alphabet. -/
def b64Index (c : Char) : Option Nat :=
  b64Alphabet.findIdx? (fun d => d = c)

/-- `base64.b64encode` over bytes: 3-byte groups into 4 alphabet
characters, with `=` padding for 1- or 2-byte tails. -/
def b64encode : List Nat → List Char
  | [] => []
  | [a] => [b64Char (a / 4), b64Char (a % 4 * 16), '=', '=']
  | [a, b] => [b64Char (a / 4), b64Char (a % 4 * 16 + b / 16), b64Char (b % 16 * 4), '=']
  | a :: b :: c :: rest =>
    b64Char (a / 4) :: b64Char (a % 4 * 16 + b / 16) ::
    b64Char (b % 16 * 4 + c / 64) :: b64Char (c % 64) :: b64encode rest

/-- `base64.b64decode`: the inverse of `b64encode`; `none` on text that is
not well-formed base64 (padding only at the very end). -/
def b64decode : List Char → Option (List Nat)
  | [] => some []
  | c1 :: c2 :: c3 :: c4 :: rest =>
    match b64Index c1, b64Index c2 with
    | some i1, some i2 =>
      if c3 = '=' then
        if c4 = '=' ∧ rest = [] then some [i1 * 4 + i2 / 16] else Option.none
      else
        match b64Index c3 with
        | some i3 =>
          if c4 = '=' then
            if rest = [] then some [i1 * 4 + i2 / 16, i2 % 16 * 16 + i3 / 4]
            else Option.none
          else
            match b64Index c4, b64decode rest with
            | some i4, some tail =>
              some ((i1 * 4 + i2 / 16) :: (i2 % 16 * 16 + i3 / 4) ::
                (i3 % 4 * 64 + i4) :: tail)
            | _, _ => Option.none
        | Option.none => Option.none
    | _, _ => Option.none
  | _ => Option.none

/-- `json_zipToStr` (manager.py lines 502-512):
`base64.b64encode(zlib.compress(json.dumps(json_data).encode('utf-8'))).decode('ascii')`. -/
def json_zipToStr (json_data : PyVal) : String :=
  String.mk (b64encode (zlibCompress (utf8AsciiEncode (json_dumps json_data).data)))

/-! ## A JSON parser (the claim's decode side) -/

/-- JSON whitespace. -/
def jsonWS (c : Char) : Bool :=
  c = ' ' || c = '\t' || c = '\n' || c = '\r'

/-- Skip leading JSON whitespace. -/
def skipWS (l : List Char) : List Char :=
  l.dropWhile jsonWS

/-- An ASCII decimal digit. -/
def isDigitChar (c : Char) : Bool :=
  48 ≤ c.toNat && c.toNat ≤ 57

/-- The value of a digit run (most significant first). -/
def digitsToNat (l : List Char) : Nat :=
  l.foldl (fun a c => a * 10 + (c.toNat - 48)) 0

/-- Parse a nonempty digit run into a natural number; reject a following
`.`/`e`/`E` (floats are outside the embedding). -/
def parseNumTail (l : List Char) : Option (Nat × List Char) :=
  let ds := l.takeWhile isDigitChar
  let rest := l.dropWhile isDigitChar
  if ds.isEmpty then Option.none
  else
    match rest.head? with
    | some c => if c = '.' || c = 'e' || c = 'E' then Option.none
                else some (digitsToNat ds, rest)
    | Option.none => some (digitsToNat ds, rest)

/-- Value of one hex digit. -/
def hexDigitVal (c : Char) : Option Nat :=
  if 48 ≤ c.toNat && c.toNat ≤ 57 then some (c.toNat - 48)
  else if 97 ≤ c.toNat && c.toNat ≤ 102 then some (c.toNat - 87)
  else if 65 ≤ c.toNat && c.toNat ≤ 70 then some (c.toNat - 55)
  else Option.none

/-- Parse exactly four hex digits. -/
def parseHex4 : List Char → Option (Nat × List Char)
  | c1 :: c2 :: c3 :: c4 :: rest =>
    match hexDigitVal c1, hexDigitVal c2, hexDigitVal c3, hexDigitVal c4 with
    | some v1, some v2, some v3, some v4 =>
      some (v1 * 4096 + v2 * 256 + v3 * 16 + v4, rest)
    | _, _, _, _ => Option.none
  | _ => Option.none

/-- Match an expected literal character sequence, returning the remainder. -/
def dropLit : List Char → List Char → Option (List Char)
  | [], l => some l
  | e :: es, c :: l => if c = e then dropLit es l else Option.none
  | _ :: _, [] => Option.none

/-- Parse a JSON string body after the opening quote: unescape the
two-character escapes, `\\uXXXX`, and surrogate pairs; stop at the closing
quote. The fuel bounds the number of parsed characters. -/
def parseStrBody : Nat → List Char → Option (List Char × List Char)
  | 0, _ => Option.none
  | _ + 1, [] => Option.none
  | fuel + 1, c :: rest =>
    if c = '"' then some ([], rest)
    else if c = '\\' then
      match rest with
      | [] => Option.none
      | e :: rest2 =>
        if e = '"' then (parseStrBody fuel rest2).map (fun p => ('"' :: p.1, p.2))
        else if e = '\\' then (parseStrBody fuel rest2).map (fun p => ('\\' :: p.1, p.2))
        else if e = '/' then (parseStrBody fuel rest2).map (fun p => ('/' :: p.1, p.2))
        else if e = 'b' then (parseStrBody fuel rest2).map (fun p => ('\x08' :: p.1, p.2))
        else if e = 'f' then (parseStrBody fuel rest2).map (fun p => ('\x0c' :: p.1, p.2))
        else if e = 'n' then (parseStrBody fuel rest2).map (fun p => ('\n' :: p.1, p.2))
        else if e = 'r' then (parseStrBody fuel rest2).map (fun p => ('\r' :: p.1, p.2))
        else if e = 't' then (parseStrBody fuel rest2).map (fun p => ('\t' :: p.1, p.2))
        else if e = 'u' then
          match parseHex4 rest2 with
          | some (v, rest3) =>
            if 0xd800 ≤ v ∧ v < 0xdc00 then
              match dropLit ['\\', 'u'] rest3 with
              | some rest4 =>
                match parseHex4 rest4 with
                | some (w, rest5) =>
                  if 0xdc00 ≤ w ∧ w < 0xe000 then
                    (parseStrBody fuel rest5).map (fun p =>
                      (Char.ofNat (0x10000 + (v - 0xd800) * 1024 + (w - 0xdc00)) :: p.1,
                       p.2))
                  else Option.none
                | Option.none => Option.none
              | Option.none => Option.none
            else if 0xdc00 ≤ v ∧ v < 0xe000 then Option.none
            else (parseStrBody fuel rest3).map (fun p => (Char.ofNat v :: p.1, p.2))
          | Option.none => Option.none
        else Option.none
    else if c.toNat < 0x20 then Option.none
    else (parseStrBody fuel rest).map (fun p => (c :: p.1, p.2))

mutual
/-- Parse one JSON value after skipping leading whitespace. The fuel bounds
the parser's recursion; `json_loads` supplies the input length. -/
def parseValue : Nat → List Char → Option (PyVal × List Char)
  | 0, _ => Option.none
  | fuel + 1, l =>
    match skipWS l with
    | [] => Option.none
    | c :: rest =>
      if c = 'n' then (dropLit ['u', 'l', 'l'] rest).map (fun r => (PyVal.none, r))
      else if c = 't' then (dropLit ['r', 'u', 'e'] rest).map (fun r => (PyVal.bool true, r))
      else if c = 'f' then
        (dropLit ['a', 'l', 's', 'e'] rest).map (fun r => (PyVal.bool false, r))
      else if c = '"' then
        (parseStrBody (rest.length + 1) rest).map (fun p => (PyVal.str (String.mk p.1), p.2))
      else if c = '[' then
        match skipWS rest with
        | [] => Option.none
        | c1 :: rest2 =>
          if c1 = ']' then some (PyVal.list [], rest2)
          else
            match parseValue fuel rest with
            | some (v, r1) =>
              (parseListTail fuel r1).map (fun p => (PyVal.list (v :: p.1), p.2))
            | Option.none => Option.none
      else if c = lbrace then
        match skipWS rest with
        | [] => Option.none
        | d :: rest2 =>
          if d = rbrace then some (PyVal.dict [], rest2)
          else
            match parseKV fuel (d :: rest2) with
            | some (kv, r1) =>
              (parseDictTail fuel r1).map (fun p => (PyVal.dict (kv :: p.1), p.2))
            | Option.none => Option.none
      else if c = '-' then
        (parseNumTail rest).map (fun p => (PyVal.int (-(p.1 : Int)), p.2))
      else
        (parseNumTail (c :: rest)).map (fun p => (PyVal.int (p.1 : Int), p.2))

/-- Parse one `"key": value` dict entry. -/
def parseKV : Nat → List Char → Option ((PyKey × PyVal) × List Char)
  | 0, _ => Option.none
  | fuel + 1, l =>
    match skipWS l with
    | [] => Option.none
    | c :: rest =>
      if c = '"' then
        match parseStrBody (rest.length + 1) rest with
        | some (ks, r1) =>
          match skipWS r1 with
          | [] => Option.none
          | d :: r2 =>
            if d = ':' then
              (parseValue fuel r2).map (fun p => ((PyKey.str (String.mk ks), p.1), p.2))
            else Option.none
        | Option.none => Option.none
      else Option.none

/-- Parse the rest of a JSON array after its first element. -/
def parseListTail : Nat → List Char → Option (List PyVal × List Char)
  | 0, _ => Option.none
  | fuel + 1, l =>
    match skipWS l with
    | [] => Option.none
    | c :: rest =>
      if c = ']' then some ([], rest)
      else if c = ',' then
        match parseValue fuel rest with
        | some (v, r1) => (parseListTail fuel r1).map (fun p => (v :: p.1, p.2))
        | Option.none => Option.none
      else Option.none

/-- Parse the rest of a JSON object after its first entry. -/
def parseDictTail : Nat → List Char → Option (List (PyKey × PyVal) × List Char)
  | 0, _ => Option.none
  | fuel + 1, l =>
    match skipWS l with
    | [] => Option.none
    | c :: rest =>
      if c = rbrace then some ([], rest)
      else if c = ',' then
        match parseKV fuel rest with
        | some (kv, r1) => (parseDictTail fuel r1).map (fun p => (kv :: p.1, p.2))
        | Option.none => Option.none
      else Option.none
end

/-- `json.loads`: parse a complete JSON document (only whitespace may
follow the value). -/
def json_loads (s : String) : Option PyVal :=
  match parseValue (s.data.length + 1) s.data with
  | some (v, rest) => if skipWS rest = [] then some v else Option.none
  | Option.none => Option.none

/-- The claim's decode pipeline: base64-decode the blob, zlib-decompress
the bytes, UTF-8-decode the text, JSON-parse it. -/
def unzipStrToJson (s : String) : Option PyVal :=
  match b64decode s.data with
  | some bytes => json_loads (String.mk (utf8AsciiDecode (zlibDecompress bytes)))
  | Option.none => Option.none

mutual
/-- All dict keys of the value are strings. -/
def strKeyedB : PyVal → Bool
  | PyVal.list items => strKeyedItems items
  | PyVal.dict items => strKeyedEntries items
  | _ => true

/-- `strKeyedB` over list items. -/
def strKeyedItems : List PyVal → Bool
  | [] => true
  | v :: rest => strKeyedB v && strKeyedItems rest

/-- `strKeyedB` over dict entries, requiring string keys. -/
def strKeyedEntries : List (PyKey × PyVal) → Bool
  | [] => true
  | (k, v) :: rest =>
    (match k with | PyKey.str _ => true | PyKey.int _ => false) &&
    strKeyedB v && strKeyedEntries rest
end

/-- The tail of a serialized JSON array after its first element:
`', ' v₂, …, vₙ]r`. -/
def listTailRep (vs : List PyVal) (r : List Char) : List Char :=
  vs.foldr (fun v acc => ',' :: ' ' :: (jsonDumpsData v ++ acc)) (']' :: r)

/-- One serialized dict entry `"k": v` followed by `r`. -/
def kvRep (kv : PyKey × PyVal) (r : List Char) : List Char :=
  jsonDumpsKey kv.1 ++ ':' :: ' ' :: (jsonDumpsData kv.2 ++ r)

/-- The tail of a serialized JSON object after its first entry. -/
def dictTailRep (kvs : List (PyKey × PyVal)) (r : List Char) : List Char :=
  kvs.foldr (fun kv acc => ',' :: ' ' :: kvRep kv acc) (rbrace :: r)

/-- The terminator condition after a serialized number: the remainder does
not continue the digit run or start a float suffix. -/
def numStop (r : List Char) : Prop :=
  ∀ c, r.head? = some c → isDigitChar c = false ∧ c ≠ '.' ∧ c ≠ 'e' ∧ c ≠ 'E'

/-- Is a dict key a string key? -/
def isStrKey : PyKey → Bool
  | PyKey.str _ => true
  | PyKey.int _ => false

/-! ## Theorems -/

/-- Shape of the normalized status string: the serializer's loop produces the
five `<phase>:<status>;` tokens in the fixed order, whitespace-stripped. -/
theorem serialize_shape (d : JobOperationSummary) :
    serialize_app_response_status d =
      "pushPath:" ++ stripAllWS d.pushPath ++ ";" ++
      "compute.submit:" ++ stripAllWS d.computeSubmit ++ ";" ++
      "compute.return:" ++ stripAllWS d.computeReturn ++ ";" ++
      "pullPath:" ++ stripAllWS d.pullPath ++ ";" ++
      "swiftPut:" ++ stripAllWS d.swiftPut ++ ";" := by
  apply String.ext
  simp [serialize_app_response_status, simpleStatus, computeStatus,
    String.data_append, List.append_assoc]

/-- The serializer's output always starts with the characters `pushPath:`,
hence never equals the bare string `finishedWithError`. -/
theorem serialize_ne_finishedWithError (d : JobOperationSummary) :
    serialize_app_response_status d ≠ "finishedWithError" := by
  intro h
  rw [serialize_shape] at h
  have hd := congrArg (fun s => s.data.head?) h
  simp [String.data_append] at hd

/-- C8: for every status response carrying the expected jobOperationSummary
fields, `serialize_app_response_status` produces the concatenation of
`<phase>:<status>;` tokens in the order pushPath, compute.submit,
compute.return, pullPath, swiftPut, with all embedded whitespace stripped
from each status value; in particular, the response where every phase
reports success yields a string containing `swiftPut:True;`. -/
theorem serialize_status_normalized_format :
    (∀ d : JobOperationSummary,
      serialize_app_response_status d =
        "pushPath:" ++ stripAllWS d.pushPath ++ ";" ++
        "compute.submit:" ++ stripAllWS d.computeSubmit ++ ";" ++
        "compute.return:" ++ stripAllWS d.computeReturn ++ ";" ++
        "pullPath:" ++ stripAllWS d.pullPath ++ ";" ++
        "swiftPut:" ++ stripAllWS d.swiftPut ++ ";") ∧
    strContains
      (serialize_app_response_status
        { pushPath := "finishedSuccessfully", computeSubmit := "finishedSuccessfully",
          computeReturn := "finishedSuccessfully", pullPath := "finishedSuccessfully",
          swiftPut := "True" })
      "swiftPut:True;" = true := by
  refine ⟨serialize_shape, ?_⟩
  decide

/-- C1 (code bug evidence): the reconciliation operation never invokes the
Error Collector — the code compares the whole normalized status string to
`'finishedWithError'` (manager.py line 282), which can never match the
serializer's output — even on a response whose compute-return phase reports
`finishedWithError`. -/
theorem error_collector_never_invoked :
    (∀ (inst : JobRecord) (resp : StatusResponse),
      Ev.invokeErrorCollector ∉ (check_plugin_instance_app_exec_status inst resp).2) ∧
    strContains
      (serialize_app_response_status
        { pushPath := "finishedSuccessfully", computeSubmit := "finishedSuccessfully",
          computeReturn := "finishedWithError", pullPath := "pending",
          swiftPut := "False" })
      "compute.return:finishedWithError" = true ∧
    (check_plugin_instance_app_exec_status
      { status := "started", summary := "", raw := "", endDateSet := false }
      { summary :=
          { pushPath := "finishedSuccessfully", computeSubmit := "finishedSuccessfully",
            computeReturn := "finishedWithError", pullPath := "pending",
            swiftPut := "False" },
        summaryBlob := "", rawBlob := "", swiftPutState := "" }).2.count
      Ev.invokeErrorCollector = 0 := by
  refine ⟨?_, by decide, by decide⟩
  intro inst resp
  unfold check_plugin_instance_app_exec_status
  rw [if_neg (serialize_ne_finishedWithError resp.summary)]
  split <;> simp

/-- C2: reconciling twice after the remote service reports store-put success
(normalized status contains `swiftPut:True`), starting from a job not yet in
the terminal success state, performs exactly one output-file registration
and exactly one end-date write across the two calls, and the second call —
seeing status already `finishedSuccessfully` — performs neither. -/
theorem reconcile_twice_idempotent (inst : JobRecord) (resp : StatusResponse)
    (hsw : strContains (serialize_app_response_status resp.summary) "swiftPut:True" = true)
    (hdb : inst.status ≠ "finishedSuccessfully") :
    ((check_plugin_instance_app_exec_status inst resp).2 ++
      (check_plugin_instance_app_exec_status
        (check_plugin_instance_app_exec_status inst resp).1 resp).2).count
        Ev.registerOutputFiles = 1 ∧
    ((check_plugin_instance_app_exec_status inst resp).2 ++
      (check_plugin_instance_app_exec_status
        (check_plugin_instance_app_exec_status inst resp).1 resp).2).count
        Ev.endDateWrite = 1 ∧
    (check_plugin_instance_app_exec_status
      (check_plugin_instance_app_exec_status inst resp).1 resp).2.count
      Ev.registerOutputFiles = 0 ∧
    (check_plugin_instance_app_exec_status
      (check_plugin_instance_app_exec_status inst resp).1 resp).2.count
      Ev.endDateWrite = 0 := by
  unfold check_plugin_instance_app_exec_status
  rw [if_neg (serialize_ne_finishedWithError resp.summary)]
  rw [if_pos (And.intro hsw hdb)]
  simp only
  rw [if_neg (serialize_ne_finishedWithError resp.summary)]
  rw [if_neg (by
    intro hcon
    exact hcon.2 rfl)]
  simp

/-- Witness for C2 at a concrete job and response. -/
theorem reconcile_twice_idempotent_witness :
    ((check_plugin_instance_app_exec_status
        { status := "started", summary := "", raw := "", endDateSet := false }
        { summary :=
            { pushPath := "finishedSuccessfully", computeSubmit := "finishedSuccessfully",
              computeReturn := "finishedSuccessfully", pullPath := "finishedSuccessfully",
              swiftPut := "True" },
          summaryBlob := "sb", rawBlob := "rb", swiftPutState := "sw" }).2 ++
      (check_plugin_instance_app_exec_status
        (check_plugin_instance_app_exec_status
          { status := "started", summary := "", raw := "", endDateSet := false }
          { summary :=
              { pushPath := "finishedSuccessfully", computeSubmit := "finishedSuccessfully",
                computeReturn := "finishedSuccessfully", pullPath := "finishedSuccessfully",
                swiftPut := "True" },
            summaryBlob := "sb", rawBlob := "rb", swiftPutState := "sw" }).1
        { summary :=
            { pushPath := "finishedSuccessfully", computeSubmit := "finishedSuccessfully",
              computeReturn := "finishedSuccessfully", pullPath := "finishedSuccessfully",
              swiftPut := "True" },
          summaryBlob := "sb", rawBlob := "rb", swiftPutState := "sw" }).2).count
        Ev.registerOutputFiles = 1 :=
  (reconcile_twice_idempotent
    { status := "started", summary := "", raw := "", endDateSet := false }
    { summary :=
        { pushPath := "finishedSuccessfully", computeSubmit := "finishedSuccessfully",
          computeReturn := "finishedSuccessfully", pullPath := "finishedSuccessfully",
          swiftPut := "True" },
      summaryBlob := "sb", rawBlob := "rb", swiftPutState := "sw" }
    (by decide) (by decide)).1

/-- C5: for every job whose previous pointer is set, the input location in
the Command Envelope is the previous job's output path — regardless of the
declared specs and submitted parameter values — and input resolution makes
no Blob Store call and leaves the store untouched (no existence check, no
squash fallback). -/
theorem previous_output_path_wins (st : SwiftState) (f : SwiftFaults)
    (dataDir : String) (inst : InstanceRec) (pdict : List (String × PyParamVal))
    (p : String) (hprev : inst.previousOutputPath = some p) :
    (run_plugin_instance_app st f dataDir inst pdict).1.sourcePath = p ∧
    (run_plugin_instance_app st f dataDir inst pdict).2.1 = st ∧
    (run_plugin_instance_app st f dataDir inst pdict).2.2 = [] := by
  unfold run_plugin_instance_app
  rw [hprev]
  rcases hp : processParams inst.plugin.parameters "/share/incoming" pdict with ⟨a, b, c⟩
  simp

/-- Witness for C5: a concrete `ds` job with a previous output path and a
submitted path-typed parameter. -/
theorem previous_output_path_wins_witness :
    (run_plugin_instance_app ⟨[]⟩
      ⟨fun _ => false, fun _ => false, fun _ => false, fun _ => false, fun _ => false⟩
      "/home/localuser/data"
      { id := 2,
        plugin :=
          { metaType := "ds", selfpath := "/usr/src", selfexec := "app.py",
            execshell := "python3", dockImage := "img",
            parameters := [{ name := "d", type := "path", action := "store", flag := "--d" }] },
        previousOutputPath := some "foo/feed_1/simplecopyapp_1/data",
        outputPath := "foo/feed_1/simplecopyapp_1/simpledsapp_2/data",
        owner := "foo", computeResourceName := "host",
        numberOfWorkers := 1, cpuLimit := 1000, memoryLimit := 200, gpuLimit := 0 }
      [("d", PyParamVal.str "some/swift/path")]).1.sourcePath
      = "foo/feed_1/simplecopyapp_1/data" :=
  (previous_output_path_wins _ _ _ _ _ _ rfl).1

/-- C4 counterexample: with an upload that raises `ClientException`, the
squash-empty branch returns the empty (trimmed original) inputdir, not the
directory portion of the squash file path, which here would be
`home/localuser/data/squashEmptyDir`. -/
theorem squash_upload_failure_counterexample :
    (manage_app_service_fsplugin_inputdir ⟨[]⟩
      ⟨fun _ => false, fun _ => false, fun _ => true, fun _ => false, fun _ => false⟩
      "/home/localuser/data" "").1 = "" ∧
    pyDirname (pyLstrip '/'
        (pyPathJoin "/home/localuser/data" "squashEmptyDir/squashEmptyDir.txt"))
      = "home/localuser/data/squashEmptyDir" ∧
    ("" : String) ≠ "home/localuser/data/squashEmptyDir" := by
  refine ⟨by decide, by decide, by decide⟩

/-- C4 amended: a storage-client failure in the squash block (the existence
check or the upload raising `ClientException`, manager.py lines 381-392) is
logged and swallowed, and the operation then returns the trimmed original
inputdir unchanged — the empty string in the empty-input branch — leaving
the store unmodified; the directory portion of the squash file path is
returned only when the storage calls succeed. -/
theorem squash_upload_failure_returns_original (st : SwiftState) (f : SwiftFaults)
    (str_inputdir squashFile squashMsg : String) (evs : List SwiftEv)
    (hfail : f.objExistsFails squashFile = true ∨
      (st.objExists squashFile = false ∧ f.uploadFails squashFile = true)) :
    (squashBlock st f str_inputdir squashFile squashMsg evs).1 = str_inputdir ∧
    (squashBlock st f str_inputdir squashFile squashMsg evs).2.1 = st := by
  unfold squashBlock
  by_cases hoe : f.objExistsFails squashFile = true
  · rw [if_pos hoe]
    exact ⟨rfl, rfl⟩
  · rcases hfail with h | ⟨hex, hup⟩
    · exact absurd h hoe
    · rw [if_neg hoe, if_pos hex, if_pos hup]
      exact ⟨rfl, rfl⟩

/-- Witness for the amended C4 at a concrete store, faults and squash file. -/
theorem squash_upload_failure_returns_original_witness :
    (squashBlock ⟨[]⟩
      ⟨fun _ => false, fun _ => false, fun _ => true, fun _ => false, fun _ => false⟩
      "" "home/localuser/data/squashEmptyDir/squashEmptyDir.txt" "Empty input dir."
      []).1 = "" :=
  (squash_upload_failure_returns_original _ _ _ _ _ _
    (Or.inr ⟨by decide, by decide⟩)).1

/-- One parameter-loop step extends `path_param_names` with the submitted
name exactly when its first matching spec is a `'store'`-action
`'path'`-typed parameter. -/
theorem paramStep_pathNames (db : List ParamSpec) (m : String)
    (acc : List String × List String × List String) (q : String × PyParamVal) :
    (paramStep db m acc q).2.1 =
      if isStorePath db q.1 then acc.2.1 ++ [q.1] else acc.2.1 := by
  unfold paramStep isStorePath
  rcases hf : db.find? (fun p => p.name = q.1) with _ | p
  · simp [hf]
  · rcases acc with ⟨args, pnames, unames⟩
    by_cases ha : p.action = "store"
    · by_cases ht : p.type = "path"
      · simp [hf, ha, ht]
      · by_cases hu : p.type = "unextpath" <;> simp [hf, ha, ht, hu]
    · by_cases h1 : p.action = "store_true" ∧ pyTruthy q.2 = true
      · simp [hf, ha, h1]
      · by_cases h2 : p.action = "store_false" ∧ pyTruthy q.2 = false <;>
          simp [hf, ha, h1, h2]

/-- The parameter fold's `path_param_names` component is the submitted
names filtered by `isStorePath`, in submission order. -/
theorem foldl_pathNames (db : List ParamSpec) (m : String)
    (pdict : List (String × PyParamVal)) :
    ∀ acc : List String × List String × List String,
      (pdict.foldl (paramStep db m) acc).2.1 =
        acc.2.1 ++ (pdict.filter (fun q => isStorePath db q.1)).map Prod.fst := by
  induction pdict with
  | nil => intro acc; simp
  | cons q rest ih =>
    intro acc
    rw [List.foldl_cons, ih]
    rw [paramStep_pathNames]
    by_cases h : isStorePath db q.1 = true
    · simp [h]
    · simp [h, Bool.eq_false_iff.mpr h]

/-- `path_param_names` as a filter of the submitted parameters. -/
theorem pathParamNames_eq (db : List ParamSpec) (pdict : List (String × PyParamVal)) :
    pathParamNames db pdict =
      (pdict.filter (fun q => isStorePath db q.1)).map Prod.fst := by
  unfold pathParamNames processParams
  rw [foldl_pathNames]
  rfl

/-- On an association list with distinct keys, `find?` by key returns
exactly the member pair with that key. -/
theorem find?_of_nodup_mem (pdict : List (String × PyParamVal)) (n : String)
    (v : PyParamVal) (hnd : (pdict.map Prod.fst).Nodup) (hmem : (n, v) ∈ pdict) :
    pdict.find? (fun q => q.1 = n) = some (n, v) := by
  induction pdict with
  | nil => cases hmem
  | cons mw rest ih =>
    rcases mw with ⟨m, w⟩
    rw [List.map_cons, List.nodup_cons] at hnd
    rcases List.mem_cons.mp hmem with heq | hmem'
    · rcases heq with ⟨rfl⟩
      rw [List.find?_cons_of_pos _ (by simp)]
    · by_cases hm : m = n
      · have : n ∈ rest.map Prod.fst := List.mem_map_of_mem Prod.fst hmem'
        rw [← hm] at this
        exact absurd this hnd.1
      · rw [List.find?_cons_of_neg _ (by simpa using hm)]
        exact ih hnd.2 hmem'

/-- C6 counterexample: two declared `path`-typed parameters submitted in
the reverse of their declaration order. The code's pre-squash input
location takes the *last submitted* path parameter (`p1`, value `"A"`); the
claim's last *declared* path parameter present in the submission is `p2`
(value `"B"`). -/
theorem last_path_param_counterexample :
    preSquashInputdir
      [{ name := "p1", type := "path", action := "store", flag := "--p1" },
       { name := "p2", type := "path", action := "store", flag := "--p2" }]
      [("p2", PyParamVal.str "B"), ("p1", PyParamVal.str "A")] = "A" ∧
    specLastDeclaredPathValue
      [{ name := "p1", type := "path", action := "store", flag := "--p1" },
       { name := "p2", type := "path", action := "store", flag := "--p2" }]
      [("p2", PyParamVal.str "B"), ("p1", PyParamVal.str "A")] = "B" ∧
    ("A" : String) ≠ "B" := by
  refine ⟨by decide, by decide, by decide⟩

/-- C6 amended: for every job without a previous pointer, the pre-squash
input location is the value of the last parameter *in submission order*
whose first matching declared spec has action `store` and type `path`
(submission keys being distinct, as in a Python dict), or the empty string
if there is none. -/
theorem last_submitted_path_param (db : List ParamSpec)
    (pdict : List (String × PyParamVal)) (hnd : (pdict.map Prod.fst).Nodup) :
    preSquashInputdir db pdict = specLastSubmittedPathValue db pdict := by
  unfold preSquashInputdir specLastSubmittedPathValue
  rw [pathParamNames_eq, List.getLast?_map]
  rcases hl : (pdict.filter (fun q => isStorePath db q.1)).getLast? with _ | nv
  · rw [hl]; rfl
  · rcases nv with ⟨n, v⟩
    have hmem : (n, v) ∈ pdict := by
      rcases List.mem_getLast?_eq_getLast (Option.mem_def.mpr hl) with ⟨hne, heq⟩
      exact List.mem_of_mem_filter (heq ▸ List.getLast_mem hne)
    rw [hl]
    simp only [Option.map_some']
    rw [find?_of_nodup_mem pdict n v hnd hmem]

/-- Witness for the amended C6 at the counterexample's concrete input. -/
theorem last_submitted_path_param_witness :
    preSquashInputdir
      [{ name := "p1", type := "path", action := "store", flag := "--p1" },
       { name := "p2", type := "path", action := "store", flag := "--p2" }]
      [("p2", PyParamVal.str "B"), ("p1", PyParamVal.str "A")] =
    specLastSubmittedPathValue
      [{ name := "p1", type := "path", action := "store", flag := "--p1" },
       { name := "p2", type := "path", action := "store", flag := "--p2" }]
      [("p2", PyParamVal.str "B"), ("p1", PyParamVal.str "A")] :=
  last_submitted_path_param _ _ (by decide)

/-- `dropWhile` passes over a block of satisfying characters and stops at
the first failing one. -/
theorem dropWhile_through (P : Char → Bool) (l : List Char)
    (h : ∀ c ∈ l, P c = true) (x : Char) (hx : P x = false) (rest : List Char) :
    (l ++ x :: rest).dropWhile P = x :: rest := by
  induction l with
  | nil => simp [List.dropWhile_cons, hx]
  | cons c l' ih =>
    rw [List.cons_append, List.dropWhile_cons, h c (List.mem_cons_self c l')]
    exact ih (fun d hd => h d (List.mem_cons_of_mem c hd))

/-- `posixpath.dirname` of `C ++ "/" ++ tail` is `C` whenever the tail is
slash-free and `C` is nonempty and does not end in a slash. -/
theorem pyDirname_concat (C tail : List Char) (hC : C ≠ [])
    (hlast : C.getLast? ≠ some '/') (htail : ∀ c ∈ tail, c ≠ '/') :
    pyDirname (String.mk (C ++ '/' :: tail)) = String.mk C := by
  unfold pyDirname
  have hx : C.getLast hC ≠ '/' := by
    intro h
    exact hlast (h ▸ List.getLast?_eq_getLast_of_ne_nil hC)
  have hrev : (C ++ '/' :: tail).reverse = tail.reverse ++ '/' :: C.reverse := by
    simp
  have hCrev : C.reverse = C.getLast hC :: C.dropLast.reverse := by
    conv_lhs => rw [← List.dropLast_append_getLast hC]
    simp
  have hdrop : (C ++ '/' :: tail).reverse.dropWhile (fun c => c ≠ '/') =
      '/' :: C.reverse := by
    rw [hrev]
    exact dropWhile_through _ _
      (fun c hc => by
        simp only [ne_eq, decide_eq_true_eq]
        exact htail c (List.mem_reverse.mp hc))
      '/' (by simp) _
  rw [hdrop]
  have hne : (('/' : Char) :: C.reverse).isEmpty = false := rfl
  rw [if_neg (by simp [hne])]
  have hall : (('/' : Char) :: C.reverse).all (fun c => c = '/') = false := by
    rw [List.all_eq_false]
    refine ⟨C.getLast hC, ?_, by simpa using hx⟩
    rw [hCrev]
    exact List.mem_cons_of_mem _ (List.mem_cons_self _ _)
  rw [if_neg (by simp [hall])]
  have hfinal : (('/' : Char) :: C.reverse).dropWhile (fun c => c = '/') = C.reverse := by
    rw [List.dropWhile_cons, if_pos (by simp)]
    rw [hCrev, List.dropWhile_cons, if_neg (by simpa using hx)]
  rw [hfinal]
  show String.mk C.reverse.reverse = String.mk C
  rw [List.reverse_reverse]

/-- The `lstrip('/')`-ed join of any data dir with the squash-empty relative
path decomposes as `C ++ "/" ++ "squashEmptyDir.txt"` with `C` ending in
`squashEmptyDir`. -/
theorem lstrip_join_decomp (d : String) : ∃ B : List Char,
    (pyLstrip '/' (pyPathJoin d "squashEmptyDir/squashEmptyDir.txt")).data =
      (B ++ "squashEmptyDir".data) ++ '/' :: "squashEmptyDir.txt".data := by
  have hrel : ("squashEmptyDir/squashEmptyDir.txt" : String).data =
      "squashEmptyDir".data ++ '/' :: "squashEmptyDir.txt".data := by decide
  have hrelDrop : ("squashEmptyDir/squashEmptyDir.txt" : String).data.dropWhile
      (fun x => x = '/') = "squashEmptyDir".data ++ '/' :: "squashEmptyDir.txt".data := by
    decide
  unfold pyPathJoin pyLstrip
  rw [if_neg (by decide :
    ¬("squashEmptyDir/squashEmptyDir.txt" : String).data.head? = some '/')]
  by_cases hd : d = ""
  · rw [if_pos hd]
    exact ⟨[], by simp only [List.nil_append]; exact hrelDrop⟩
  · rw [if_neg hd]
    by_cases hl : d.data.getLast? = some '/'
    · rw [if_pos hl]
      rw [String.data_append, List.dropWhile_append]
      split
      · exact ⟨[], by simp only [List.nil_append]; exact hrelDrop⟩
      · exact ⟨d.data.dropWhile (fun x => x = '/'), by
          rw [hrel]
          simp [List.append_assoc]⟩
    · rw [if_neg hl]
      rw [String.data_append, String.data_append, List.append_assoc,
        List.dropWhile_append]
      split
      · rename_i hemp
        exfalso
        simp only [List.isEmpty_iff, List.dropWhile_eq_nil_iff, decide_eq_true_eq] at hemp
        have hdd : d.data ≠ [] := by
          intro h
          exact hd (String.ext h)
        exact hl ((List.getLast?_eq_getLast_of_ne_nil hdd).trans
          (congrArg some (hemp _ (List.getLast_mem hdd))))
      · exact ⟨d.data.dropWhile (fun x => x = '/') ++ ['/'], by
          rw [hrel]
          simp [List.append_assoc]⟩

/-- Gluing the two: `dirname(sq) ++ "/squashEmptyDir.txt" = sq` for the
squash-empty file path derived from any data dir. -/
theorem pyDirname_squashEmpty (d : String) :
    pyDirname (pyLstrip '/' (pyPathJoin d "squashEmptyDir/squashEmptyDir.txt")) ++
      "/squashEmptyDir.txt" =
    pyLstrip '/' (pyPathJoin d "squashEmptyDir/squashEmptyDir.txt") := by
  rcases lstrip_join_decomp d with ⟨B, hB⟩
  set sq := pyLstrip '/' (pyPathJoin d "squashEmptyDir/squashEmptyDir.txt") with hsq
  have hsqmk : sq = String.mk ((B ++ "squashEmptyDir".data) ++ '/' ::
      "squashEmptyDir.txt".data) := by
    apply String.ext
    simpa using hB
  have hC1 : B ++ "squashEmptyDir".data ≠ [] := by
    intro h
    have := List.append_eq_nil.mp h
    simp at this
  have hC2 : (B ++ "squashEmptyDir".data).getLast? ≠ some '/' := by
    rw [List.getLast?_append_of_ne_nil B (by decide :
      ("squashEmptyDir" : String).data ≠ [])]
    decide
  have hC3 : ∀ c ∈ ("squashEmptyDir.txt" : String).data, c ≠ '/' := by decide
  rw [hsqmk, pyDirname_concat _ _ hC1 hC2 hC3]
  apply String.ext
  simp [String.data_append]

/-- After `upload`, looking up the uploaded key yields the uploaded
content. -/
theorem upload_lookup (st : SwiftState) (p c : String) :
    (st.upload p c).lookup p = some c := by
  unfold SwiftState.upload SwiftState.lookup
  rw [List.find?_append]
  have h1 : (st.objs.filter (fun kv => kv.1 ≠ p)).find? (fun kv => kv.1 = p) = none := by
    rw [List.find?_eq_none]
    intro kv hkv
    have := List.of_mem_filter hkv
    simpa using this
  rw [h1]
  simp

/-- C7: for a root job (no previous pointer) with no path-typed parameter
submitted and all Blob Store operations succeeding (and no squash object
yet present), input resolution returns the squash-empty placeholder
directory, the resolved directory plus `/squashEmptyDir.txt` is exactly the
squash file path, and after resolution that object holds the text
`Empty input dir.`. -/
theorem run_empty_input_squash (st : SwiftState) (f : SwiftFaults) (dataDir : String)
    (inst : InstanceRec) (pdict : List (String × PyParamVal)) (sq : String)
    (hsq : sq = pyLstrip '/' (pyPathJoin dataDir "squashEmptyDir/squashEmptyDir.txt"))
    (hprev : inst.previousOutputPath = none)
    (hnopath : pathParamNames inst.plugin.parameters pdict = [])
    (hoe : f.objExistsFails sq = false)
    (hup : f.uploadFails sq = false)
    (habsent : st.objExists sq = false) :
    (run_plugin_instance_app st f dataDir inst pdict).1.sourcePath = pyDirname sq ∧
    (run_plugin_instance_app st f dataDir inst pdict).2.1.lookup sq =
      some "Empty input dir." ∧
    (run_plugin_instance_app st f dataDir inst pdict).1.sourcePath ++
      "/squashEmptyDir.txt" = sq := by
  have hpre : preSquashInputdir inst.plugin.parameters pdict = "" := by
    unfold preSquashInputdir
    rw [hnopath]
    rfl
  have htrim : pyLstrip '.' (pyStrip "") = "" := by decide
  have hmanage : manage_app_service_fsplugin_inputdir st f dataDir "" =
      (pyDirname sq, st.upload sq "Empty input dir.",
       [SwiftEv.objExistsCheck sq, SwiftEv.uploadObj sq]) := by
    unfold manage_app_service_fsplugin_inputdir
    rw [htrim]
    rw [if_neg (by simp)]
    rw [← hsq]
    unfold squashBlock
    rw [if_neg (by simp [hoe]), if_pos habsent, if_neg (by simp [hup])]
    rfl
  unfold run_plugin_instance_app
  rw [hprev]
  rcases hp : processParams inst.plugin.parameters "/share/incoming" pdict with ⟨a, b, c⟩
  dsimp only
  rw [hpre, hmanage]
  refine ⟨rfl, ?_, ?_⟩
  · exact upload_lookup st sq "Empty input dir."
  · show pyDirname sq ++ "/squashEmptyDir.txt" = sq
    rw [hsq]
    exact pyDirname_squashEmpty dataDir

/-- Witness for C7 at a concrete root job, empty store and all-success
faults. -/
theorem run_empty_input_squash_witness :
    (run_plugin_instance_app ⟨[]⟩
      ⟨fun _ => false, fun _ => false, fun _ => false, fun _ => false, fun _ => false⟩
      "/home/localuser/data"
      { id := 1,
        plugin :=
          { metaType := "fs", selfpath := "/usr/src", selfexec := "app.py",
            execshell := "python3", dockImage := "img", parameters := [] },
        previousOutputPath := none,
        outputPath := "foo/feed_1/simplecopyapp_1/data",
        owner := "foo", computeResourceName := "host",
        numberOfWorkers := 1, cpuLimit := 1000, memoryLimit := 200, gpuLimit := 0 }
      []).2.1.lookup "home/localuser/data/squashEmptyDir/squashEmptyDir.txt" =
      some "Empty input dir." :=
  (run_empty_input_squash _ _ _ _ _ _ (by decide) (by decide) (by decide)
    (by decide) (by decide) (by decide)).2.1

/-- Every key returned by `ls` has content in the store. -/
theorem ls_lookup_isSome (st : SwiftState) (q p : String) (h : p ∈ st.ls q) :
    (st.lookup p).isSome := by
  unfold SwiftState.ls at h
  unfold SwiftState.lookup
  rcases List.mem_map.mp h with ⟨kv, hkv, rfl⟩
  have hmem := List.mem_of_mem_filter hkv
  rw [Option.isSome_map']
  exact List.find?_isSome.mpr ⟨kv, hmem, by simp⟩

/-- The object loop never raises when every listed object's download
succeeds and has stored content. -/
theorem zipObjLoop_ok (st : SwiftState) (f : SwiftFaults) (objs : List String)
    (h : ∀ p ∈ objs, f.downloadFails p = false ∧ (st.lookup p).isSome) :
    ∀ cs es, ∃ c' es', zipObjLoop st f objs cs es = Except.ok (c', es') := by
  induction objs with
  | nil => exact fun cs es => ⟨cs, es, rfl⟩
  | cons obj rest ih =>
    intro cs es
    obtain ⟨hd, hs⟩ := h obj (List.mem_cons_self obj rest)
    obtain ⟨v, hv⟩ := Option.isSome_iff_exists.mp hs
    unfold zipObjLoop
    rw [if_neg (by simp [hd, hv])]
    rw [hv]
    exact ih (fun p hp => h p (List.mem_cons_of_mem obj hp)) _ _

/-- The prefix loop never raises when all downloads succeed; listing
failures only skip the listing. -/
theorem zipPathLoop_ok (st : SwiftState) (f : SwiftFaults) (paths : List String)
    (hdl : ∀ p, f.downloadFails p = false) :
    ∀ cs es, ∃ c' es', zipPathLoop st f paths cs es = Except.ok (c', es') := by
  induction paths with
  | nil => exact fun cs es => ⟨cs, es, rfl⟩
  | cons sp rest ih =>
    intro cs es
    unfold zipPathLoop
    by_cases hls : f.lsFails sp = true
    · rw [if_pos hls]
      exact ih cs es
    · rw [if_neg hls]
      obtain ⟨c', es', hobj⟩ := zipObjLoop_ok st f (st.ls sp)
        (fun p hp => ⟨hdl p, ls_lookup_isSome st sp p hp⟩) cs es
      dsimp only
      rw [hobj]
      exact ih c' es'

/-- C9 counterexample: at a fully successful run, `create_zip_file` builds
the archive but its return value is `None` (the body has no `return`
statement), not the archive's local path. -/
theorem create_zip_returns_none_counterexample :
    create_zip_file ⟨[("a/f1", "d1")]⟩
      ⟨fun _ => false, fun _ => false, fun _ => false, fun _ => false, fun _ => false⟩
      "/home/localuser/data" "chris-jid-3" ["a/"] =
      Except.ok { returnValue := none,
                  zipfilePath := "/home/localuser/data/chris-jid-3.zip",
                  entries := [("a/f1", "d1")] } ∧
    (Option.none : Option String) ≠ some "/home/localuser/data/chris-jid-3.zip" := by
  refine ⟨rfl, by decide⟩

/-- C9 amended: for every job id and prefix sequence, provided every
attempted object download succeeds, `create_zip_file` builds the archive at
`os.path.join(data_dir, job_id + '.zip')` and returns `None` (not the
path), regardless of partial listing failures, which are skipped. -/
theorem create_zip_writes_archive_returns_none (st : SwiftState) (f : SwiftFaults)
    (dataDir jobId : String) (paths : List String)
    (hdl : ∀ p, f.downloadFails p = false) :
    ∃ es, create_zip_file st f dataDir jobId paths =
      Except.ok { returnValue := none,
                  zipfilePath := pyPathJoin dataDir (jobId ++ ".zip"),
                  entries := es } := by
  unfold create_zip_file
  obtain ⟨c', es', h⟩ := zipPathLoop_ok st f paths hdl none []
  rw [h]
  exact ⟨es', rfl⟩

/-- Witness for the amended C9 at a concrete store with a failing listing
on one of two prefixes. -/
theorem create_zip_writes_archive_returns_none_witness :
    ∃ es, create_zip_file ⟨[("a/f1", "d1"), ("b/f2", "d2")]⟩
      ⟨fun _ => false, fun _ => false, fun _ => false,
       fun p => decide (p = "b/"), fun _ => false⟩
      "/home/localuser/data" "chris-jid-3" ["a/", "b/"] =
      Except.ok { returnValue := none,
                  zipfilePath := pyPathJoin "/home/localuser/data" ("chris-jid-3" ++ ".zip"),
                  entries := es } :=
  create_zip_writes_archive_returns_none _ _ _ _ _ (fun _ => rfl)

/-- C3 (code bug evidence): the `writestr` call sits outside the download
`try`/`except` (manager.py line 500), so (i) after a failed download the
failed object's key is written with the *previous* object's bytes instead
of being skipped; (ii) a download failure before any success aborts the
whole build with `UnboundLocalError`; while (iii) a failed prefix listing
is indeed skipped and the other prefixes' objects all appear. -/
theorem zip_stale_write_on_failed_download :
    create_zip_file ⟨[("a/f1", "data1"), ("a/f2", "data2")]⟩
      ⟨fun _ => false, fun _ => false, fun _ => false, fun _ => false,
       fun p => decide (p = "a/f2")⟩
      "/home/localuser/data" "chris-jid-5" ["a/"] =
      Except.ok { returnValue := none,
                  zipfilePath := "/home/localuser/data/chris-jid-5.zip",
                  entries := [("a/f1", "data1"), ("a/f2", "data1")] } ∧
    create_zip_file ⟨[("a/f1", "data1"), ("a/f2", "data2")]⟩
      ⟨fun _ => false, fun _ => false, fun _ => false, fun _ => false,
       fun _ => true⟩
      "/home/localuser/data" "chris-jid-5" ["a/"] =
      Except.error "UnboundLocalError: contents" ∧
    create_zip_file ⟨[("a/f1", "data1"), ("b/f2", "data2")]⟩
      ⟨fun _ => false, fun _ => false, fun _ => false,
       fun p => decide (p = "b/"), fun _ => false⟩
      "/home/localuser/data" "chris-jid-5" ["a/", "b/"] =
      Except.ok { returnValue := none,
                  zipfilePath := "/home/localuser/data/chris-jid-5.zip",
                  entries := [("a/f1", "data1")] } ∧
    ("data1" : String) ≠ "data2" := by
  refine ⟨rfl, rfl, rfl, by decide⟩

/-- Characters are determined by their code point. -/
theorem char_toNat_inj {c d : Char} (h : c.toNat = d.toNat) : c = d :=
  Char.eq_of_val_eq (UInt32.ext h)

/-- `Char.ofNat` round-trips on code points below the surrogate range. -/
theorem char_toNat_ofNat {n : Nat} (h : n < 55296) : (Char.ofNat n).toNat = n := by
  unfold Char.ofNat
  split
  · rfl
  · rename_i hc
    exact absurd (Or.inl (by omega)) hc

/-- A character's code point avoids the surrogate range. -/
theorem char_valid_range (c : Char) :
    c.toNat < 0xd800 ∨ (0xdfff < c.toNat ∧ c.toNat < 0x110000) := by
  have h := c.valid
  unfold UInt32.isValidChar at h
  unfold Nat.isValidChar at h
  exact h

/-- `b64Index` inverts `b64Char` on 6-bit values. -/
theorem b64Index_b64Char : ∀ n, n < 64 → b64Index (b64Char n) = some n := by decide

/-- Alphabet characters are not the padding character. -/
theorem b64Char_ne_pad : ∀ n, n < 64 → b64Char n ≠ '=' := by decide

/-- `b64decode` inverts `b64encode` on byte lists. -/
theorem b64_roundtrip : ∀ l : List Nat, (∀ x ∈ l, x < 256) →
    b64decode (b64encode l) = some l := by
  intro l
  induction l using b64encode.induct with
  | case1 => intro _; rfl
  | case2 a =>
    intro h
    have ha : a < 256 := h a (by simp)
    simp only [b64encode, b64decode]
    rw [b64Index_b64Char _ (by omega), b64Index_b64Char _ (by omega)]
    simp
    omega
  | case3 a b =>
    intro h
    have ha : a < 256 := h a (by simp)
    have hb : b < 256 := h b (by simp)
    simp only [b64encode, b64decode]
    rw [b64Index_b64Char _ (by omega), b64Index_b64Char _ (by omega)]
    dsimp only
    rw [if_neg (b64Char_ne_pad (b % 16 * 4) (by omega))]
    rw [b64Index_b64Char _ (by omega)]
    simp
    omega
  | case4 a b c rest ih =>
    intro h
    have ha : a < 256 := h a (by simp)
    have hb : b < 256 := h b (by simp)
    have hc : c < 256 := h c (by simp)
    have hrest := ih (fun x hx => h x (by simp [hx]))
    simp only [b64encode, b64decode]
    rw [b64Index_b64Char _ (by omega), b64Index_b64Char _ (by omega)]
    dsimp only
    rw [if_neg (b64Char_ne_pad (b % 16 * 4 + c / 64) (by omega))]
    rw [b64Index_b64Char _ (by omega)]
    dsimp only
    rw [if_neg (b64Char_ne_pad (c % 64) (by omega))]
    rw [b64Index_b64Char _ (by omega), hrest]
    simp
    omega

/-- UTF-8 (ASCII fragment) decoding inverts encoding. -/
theorem utf8_roundtrip (l : List Char) : utf8AsciiDecode (utf8AsciiEncode l) = l := by
  unfold utf8AsciiDecode utf8AsciiEncode
  rw [List.map_map]
  apply List.map_id''
  intro c
  exact Char.ofNat_toNat c

/-- The digit accumulator only appends in front of `acc`. -/
theorem natDecimalGo_acc : ∀ fuel n acc,
    natDecimalGo fuel n acc = natDecimalGo fuel n [] ++ acc := by
  intro fuel
  induction fuel with
  | zero => intro n acc; simp [natDecimalGo]
  | succ fuel ih =>
    intro n acc
    unfold natDecimalGo
    by_cases h : n = 0
    · simp [h]
    · rw [if_neg h, if_neg h, ih (n / 10) (Char.ofNat (48 + n % 10) :: acc),
        ih (n / 10) [Char.ofNat (48 + n % 10)], List.append_assoc]
      rfl

/-- Appending one digit multiplies the accumulated value by ten. -/
theorem digitsToNat_append_one (l : List Char) (c : Char) :
    digitsToNat (l ++ [c]) = digitsToNat l * 10 + (c.toNat - 48) := by
  unfold digitsToNat
  rw [List.foldl_append]
  rfl

/-- The decimal digits evaluate back to the number. -/
theorem digitsToNat_natDecimalGo : ∀ fuel n, n ≤ fuel →
    digitsToNat (natDecimalGo fuel n []) = n := by
  intro fuel
  induction fuel with
  | zero =>
    intro n hn
    interval_cases n
    rfl
  | succ fuel ih =>
    intro n hn
    unfold natDecimalGo
    by_cases h : n = 0
    · simp [h, digitsToNat]
    · rw [if_neg h, natDecimalGo_acc, digitsToNat_append_one,
        ih (n / 10) (by omega), char_toNat_ofNat (by omega)]
      omega

/-- `digitsToNat` inverts `natDecimal`. -/
theorem digitsToNat_natDecimal (n : Nat) : digitsToNat (natDecimal n) = n := by
  unfold natDecimal
  by_cases h : n = 0
  · simp [h]
    decide
  · rw [if_neg h, digitsToNat_natDecimalGo n n le_rfl]

/-- Every character the digit accumulator produces is a decimal digit
(given the accumulator holds digits). -/
theorem natDecimalGo_digits : ∀ fuel n acc,
    (∀ c ∈ acc, isDigitChar c = true) →
    ∀ c ∈ natDecimalGo fuel n acc, isDigitChar c = true := by
  intro fuel
  induction fuel with
  | zero => intro n acc hacc; simpa [natDecimalGo] using hacc
  | succ fuel ih =>
    intro n acc hacc
    unfold natDecimalGo
    by_cases h : n = 0
    · simpa [h] using hacc
    · rw [if_neg h]
      refine ih (n / 10) _ ?_
      intro c hc
      rcases List.mem_cons.mp hc with rfl | hc'
      · simp [isDigitChar, char_toNat_ofNat (show 48 + n % 10 < 55296 by omega)]
        omega
      · exact hacc c hc'

/-- Every character of `natDecimal n` is a decimal digit. -/
theorem natDecimal_digits (n : Nat) : ∀ c ∈ natDecimal n, isDigitChar c = true := by
  unfold natDecimal
  by_cases h : n = 0
  · simp [h]
    decide
  · rw [if_neg h]
    exact natDecimalGo_digits n n [] (by simp)

/-- `natDecimal n` is never empty. -/
theorem natDecimal_ne_nil (n : Nat) : natDecimal n ≠ [] := by
  unfold natDecimal
  by_cases h : n = 0
  · simp [h]
  · rw [if_neg h]
    rcases n with _ | m
    · exact absurd rfl h
    · unfold natDecimalGo
      rw [if_neg h, natDecimalGo_acc]
      simp

/-- `takeWhile` keeps exactly a satisfying block terminated by a failing
head. -/
theorem takeWhile_through (P : Char → Bool) (l : List Char)
    (h : ∀ c ∈ l, P c = true) (r : List Char)
    (hr : ∀ c, r.head? = some c → P c = false) :
    (l ++ r).takeWhile P = l := by
  induction l with
  | nil =>
    rcases r with _ | ⟨c, r'⟩
    · rfl
    · simp [List.takeWhile_cons, hr c rfl]
  | cons c l' ih =>
    rw [List.cons_append, List.takeWhile_cons, h c (List.mem_cons_self c l')]
    simp only [if_true]
    rw [ih (fun d hd => h d (List.mem_cons_of_mem c hd))]

/-- `dropWhile` drops exactly a satisfying block terminated by a failing
head. -/
theorem dropWhile_through2 (P : Char → Bool) (l : List Char)
    (h : ∀ c ∈ l, P c = true) (r : List Char)
    (hr : ∀ c, r.head? = some c → P c = false) :
    (l ++ r).dropWhile P = r := by
  induction l with
  | nil =>
    rcases r with _ | ⟨c, r'⟩
    · rfl
    · simp [List.dropWhile_cons, hr c rfl]
  | cons c l' ih =>
    rw [List.cons_append, List.dropWhile_cons, h c (List.mem_cons_self c l')]
    exact ih (fun d hd => h d (List.mem_cons_of_mem c hd))

/-- Parsing the serialized decimal of `n` recovers `n` when the remainder
does not extend the number. -/
theorem parseNumTail_natDecimal (n : Nat) (r : List Char) (hr : numStop r) :
    parseNumTail (natDecimal n ++ r) = some (n, r) := by
  unfold parseNumTail
  rw [takeWhile_through isDigitChar (natDecimal n) (natDecimal_digits n) r
    (fun c hc => (hr c hc).1)]
  rw [dropWhile_through2 isDigitChar (natDecimal n) (natDecimal_digits n) r
    (fun c hc => (hr c hc).1)]
  rw [if_neg (by simpa using natDecimal_ne_nil n)]
  rcases hh : r.head? with _ | c
  · rw [digitsToNat_natDecimal]
  · obtain ⟨-, h2, h3, h4⟩ := hr c hh
    dsimp only
    rw [if_neg (by simp [h2, h3, h4]), digitsToNat_natDecimal]

/-- A decimal digit is none of the parser's dispatch characters and is not
JSON whitespace. -/
theorem digit_not_special (c : Char) (h : isDigitChar c = true) :
    jsonWS c = false ∧ c ≠ 'n' ∧ c ≠ 't' ∧ c ≠ 'f' ∧ c ≠ '"' ∧ c ≠ '[' ∧
      c ≠ lbrace ∧ c ≠ '-' := by
  refine ⟨?_, ?_, ?_, ?_, ?_, ?_, ?_, ?_⟩
  · unfold jsonWS
    simp only [Bool.or_eq_false_iff, decide_eq_false_iff_not]
    refine ⟨⟨⟨?_, ?_⟩, ?_⟩, ?_⟩ <;> (rintro rfl; exact absurd h (by decide))
  all_goals (rintro rfl; exact absurd h (by decide))

/-- `hexDigitVal` inverts `hexDigitChar` on 4-bit values. -/
theorem hexDigitVal_hexDigitChar : ∀ d, d < 16 → hexDigitVal (hexDigitChar d) = some d := by
  decide

/-- `parseHex4` inverts `toHex4` below `0x10000`. -/
theorem parseHex4_toHex4 (n : Nat) (h : n < 65536) (rest : List Char) :
    parseHex4 (toHex4 n ++ rest) = some (n, rest) := by
  unfold toHex4
  simp only [List.cons_append, List.nil_append]
  unfold parseHex4
  dsimp only
  rw [hexDigitVal_hexDigitChar _ (by omega), hexDigitVal_hexDigitChar _ (by omega),
    hexDigitVal_hexDigitChar _ (by omega), hexDigitVal_hexDigitChar _ (by omega)]
  dsimp only
  congr 2
  omega

/-- Escapes are never empty. -/
theorem escapeChar_length_pos (c : Char) : 0 < (escapeChar c).length := by
  unfold escapeChar
  split_ifs <;> simp

/-- `escapeString` unfolds one character at a time. -/
theorem escapeString_cons (c : Char) (cs : List Char) :
    escapeString (c :: cs) = escapeChar c ++ escapeString cs := rfl

/-- One parser step over an unescaped printable character. -/
theorem parseStrBody_plain (f : Nat) (c : Char) (h1 : c ≠ '"') (h2 : c ≠ '\\')
    (h3 : ¬c.toNat < 0x20) (tail : List Char) :
    parseStrBody (f + 1) (c :: tail) =
      (parseStrBody f tail).map (fun p => (c :: p.1, p.2)) := by
  simp only [parseStrBody]
  rw [if_neg h1, if_neg h2, if_neg h3]

/-- One parser step over a single `\uXXXX` escape outside the surrogate
range. -/
theorem parseStrBody_u_single (f : Nat) (v : Nat) (h16 : v < 65536)
    (hsur : v < 0xd800 ∨ 0xdfff < v) (tail : List Char) :
    parseStrBody (f + 1) ('\\' :: 'u' :: (toHex4 v ++ tail)) =
      (parseStrBody f tail).map (fun p => (Char.ofNat v :: p.1, p.2)) := by
  simp only [parseStrBody, if_true]
  rw [if_neg (show ¬('u' : Char) = '"' by decide),
    if_neg (show ¬('u' : Char) = '\\' by decide),
    if_neg (show ¬('u' : Char) = '/' by decide),
    if_neg (show ¬('u' : Char) = 'b' by decide),
    if_neg (show ¬('u' : Char) = 'f' by decide),
    if_neg (show ¬('u' : Char) = 'n' by decide),
    if_neg (show ¬('u' : Char) = 'r' by decide),
    if_neg (show ¬('u' : Char) = 't' by decide)]
  rw [parseHex4_toHex4 v h16 tail]
  dsimp only
  rw [if_neg (show ¬(55296 ≤ v ∧ v < 56320) by omega),
    if_neg (show ¬(56320 ≤ v ∧ v < 57344) by omega)]
  rw [if_neg (show ¬('\\' : Char) = '"' by decide)]

/-- One parser step over a surrogate-pair escape. -/
theorem parseStrBody_u_pair (f : Nat) (v w : Nat)
    (hv : 0xd800 ≤ v ∧ v < 0xdc00) (hw : 0xdc00 ≤ w ∧ w < 0xe000) (tail : List Char) :
    parseStrBody (f + 1)
        ('\\' :: 'u' :: (toHex4 v ++ ('\\' :: 'u' :: (toHex4 w ++ tail)))) =
      (parseStrBody f tail).map (fun p =>
        (Char.ofNat (0x10000 + (v - 0xd800) * 1024 + (w - 0xdc00)) :: p.1, p.2)) := by
  simp only [parseStrBody, if_true]
  rw [if_neg (show ¬('u' : Char) = '"' by decide),
    if_neg (show ¬('u' : Char) = '\\' by decide),
    if_neg (show ¬('u' : Char) = '/' by decide),
    if_neg (show ¬('u' : Char) = 'b' by decide),
    if_neg (show ¬('u' : Char) = 'f' by decide),
    if_neg (show ¬('u' : Char) = 'n' by decide),
    if_neg (show ¬('u' : Char) = 'r' by decide),
    if_neg (show ¬('u' : Char) = 't' by decide)]
  rw [parseHex4_toHex4 v (by omega)]
  dsimp only
  rw [if_pos hv]
  rw [if_neg (show ¬('\\' : Char) = '"' by decide)]
  rw [show dropLit ['\\', 'u'] ('\\' :: 'u' :: (toHex4 w ++ tail)) =
    some (toHex4 w ++ tail) from rfl]
  dsimp only
  rw [parseHex4_toHex4 w (by omega)]
  dsimp only
  rw [if_pos hw]

/-- The string-body parser inverts `json.dumps`'s escaping: parsing
`escape(s) ++ '"' ++ r` yields `s` and leaves `r`. -/
theorem parseStrBody_escape : ∀ (s : List Char) (r : List Char) (fuel : Nat),
    (escapeString s).length < fuel →
    parseStrBody fuel (escapeString s ++ '"' :: r) = some (s, r) := by
  intro s
  induction s with
  | nil =>
    intro r fuel hf
    rcases fuel with _ | f
    · omega
    · simp [escapeString, parseStrBody]
  | cons c cs ih =>
    intro r fuel hf
    rw [escapeString_cons] at hf ⊢
    rcases fuel with _ | f
    · omega
    by_cases h1 : c = '"'
    · subst h1
      have hesc : escapeChar '"' = ['\\', '"'] := by decide
      rw [hesc] at hf ⊢
      simp only [List.cons_append, List.nil_append, parseStrBody]
      norm_num
      rw [ih r f (by simp at hf ⊢; omega)]
      rfl
    · by_cases h2 : c = '\\'
      · subst h2
        have hesc : escapeChar '\\' = ['\\', '\\'] := by decide
        rw [hesc] at hf ⊢
        simp only [List.cons_append, List.nil_append, parseStrBody]
        norm_num
        rw [ih r f (by simp at hf ⊢; omega)]
        rfl
      · by_cases h3 : c = '\x08'
        · subst h3
          have hesc : escapeChar '\x08' = ['\\', 'b'] := by decide
          rw [hesc] at hf ⊢
          simp only [List.cons_append, List.nil_append, parseStrBody]
          norm_num
          rw [ih r f (by simp at hf ⊢; omega)]
          rfl
        · by_cases h4 : c = '\x0c'
          · subst h4
            have hesc : escapeChar '\x0c' = ['\\', 'f'] := by decide
            rw [hesc] at hf ⊢
            simp only [List.cons_append, List.nil_append, parseStrBody]
            norm_num
            rw [ih r f (by simp at hf ⊢; omega)]
            rfl
          · by_cases h5 : c = '\n'
            · subst h5
              have hesc : escapeChar '\n' = ['\\', 'n'] := by decide
              rw [hesc] at hf ⊢
              simp only [List.cons_append, List.nil_append, parseStrBody]
              norm_num
              rw [ih r f (by simp at hf ⊢; omega)]
              rfl
            · by_cases h6 : c = '\r'
              · subst h6
                have hesc : escapeChar '\r' = ['\\', 'r'] := by decide
                rw [hesc] at hf ⊢
                simp only [List.cons_append, List.nil_append, parseStrBody]
                norm_num
                rw [ih r f (by simp at hf ⊢; omega)]
                rfl
              · by_cases h7 : c = '\t'
                · subst h7
                  have hesc : escapeChar '\t' = ['\\', 't'] := by decide
                  rw [hesc] at hf ⊢
                  simp only [List.cons_append, List.nil_append, parseStrBody]
                  norm_num
                  rw [ih r f (by simp at hf ⊢; omega)]
                  rfl
                · by_cases h8 : c.toNat < 0x20 ∨ 0x7e < c.toNat
                  · by_cases h9 : c.toNat < 0x10000
                    · have hesc : escapeChar c = '\\' :: 'u' :: toHex4 c.toNat := by
                        unfold escapeChar
                        rw [if_neg h1, if_neg h2, if_neg h3, if_neg h4, if_neg h5,
                          if_neg h6, if_neg h7, if_pos h8, if_pos h9]
                      have hval := char_valid_range c
                      rw [hesc] at hf ⊢
                      simp only [List.cons_append, List.append_assoc]
                      rw [parseStrBody_u_single f c.toNat h9 (by omega) _]
                      rw [ih r f (by simp at hf ⊢; omega)]
                      dsimp only [Option.map_some']
                      rw [Char.ofNat_toNat]
                    · have hesc : escapeChar c =
                          ('\\' :: 'u' :: toHex4 (0xd800 + (c.toNat - 0x10000) / 1024)) ++
                          ('\\' :: 'u' :: toHex4 (0xdc00 + (c.toNat - 0x10000) % 1024)) := by
                        unfold escapeChar
                        rw [if_neg h1, if_neg h2, if_neg h3, if_neg h4, if_neg h5,
                          if_neg h6, if_neg h7, if_pos h8, if_neg h9]
                      have hval := char_valid_range c
                      rw [hesc] at hf ⊢
                      simp only [List.cons_append, List.append_assoc]
                      rw [parseStrBody_u_pair f _ _ ⟨by omega, by omega⟩ ⟨by omega, by omega⟩ _]
                      rw [ih r f (by simp at hf ⊢; omega)]
                      dsimp only [Option.map_some']
                      have hcode : 0x10000 +
                          (0xd800 + (c.toNat - 0x10000) / 1024 - 0xd800) * 1024 +
                          (0xdc00 + (c.toNat - 0x10000) % 1024 - 0xdc00) = c.toNat := by omega
                      rw [hcode, Char.ofNat_toNat]
                  · have hesc : escapeChar c = [c] := by
                      unfold escapeChar
                      rw [if_neg h1, if_neg h2, if_neg h3, if_neg h4, if_neg h5,
                        if_neg h6, if_neg h7, if_neg h8]
                    rw [hesc] at hf ⊢
                    simp only [List.cons_append, List.nil_append]
                    rw [parseStrBody_plain f c h1 h2 (by omega) _]
                    rw [ih r f (by simp at hf ⊢; omega)]
                    rfl

/-- `skipWS` passes over a non-whitespace head. -/
theorem skipWS_cons_of (c : Char) (l : List Char) (h : jsonWS c = false) :
    skipWS (c :: l) = c :: l := by
  simp [skipWS, List.dropWhile_cons, h]

/-- `skipWS` consumes a leading space. -/
theorem skipWS_space (l : List Char) : skipWS (' ' :: l) = skipWS l := by
  unfold skipWS
  rw [List.dropWhile_cons, if_pos (show jsonWS ' ' = true by decide)]

/-- `parseValue` ignores a leading space. -/
theorem parseValue_space (fuel : Nat) (l : List Char) :
    parseValue fuel (' ' :: l) = parseValue fuel l := by
  rcases fuel with _ | f
  · rfl
  · simp only [parseValue, skipWS_space]

/-- `parseKV` ignores a leading space. -/
theorem parseKV_space (fuel : Nat) (l : List Char) :
    parseKV fuel (' ' :: l) = parseKV fuel l := by
  rcases fuel with _ | f
  · rfl
  · simp only [parseKV, skipWS_space]

/-- A list whose head fails the digit/float tests satisfies `numStop`. -/
theorem numStop_of_head (c : Char)
    (h : isDigitChar c = false ∧ c ≠ '.' ∧ c ≠ 'e' ∧ c ≠ 'E') (t : List Char) :
    numStop (c :: t) := by
  intro c' hc'
  rw [List.head?_cons, Option.some.injEq] at hc'
  exact hc' ▸ h

/-- The empty remainder satisfies `numStop`. -/
theorem numStop_nil : numStop [] := by
  intro c hc
  cases hc

/-- A serialized list tail starts with `,` or `]`. -/
theorem numStop_listTailRep (vs : List PyVal) (r : List Char) :
    numStop (listTailRep vs r) := by
  rcases vs with _ | ⟨v, vs'⟩
  · exact numStop_of_head ']' (by refine ⟨by decide, by decide, by decide, by decide⟩) r
  · exact numStop_of_head ',' (by refine ⟨by decide, by decide, by decide, by decide⟩) _

/-- A serialized dict tail starts with `,` or the closing brace. -/
theorem numStop_dictTailRep (kvs : List (PyKey × PyVal)) (r : List Char) :
    numStop (dictTailRep kvs r) := by
  rcases kvs with _ | ⟨kv, kvs'⟩
  · exact numStop_of_head rbrace (by refine ⟨by decide, by decide, by decide, by decide⟩) r
  · exact numStop_of_head ',' (by refine ⟨by decide, by decide, by decide, by decide⟩) _

/-- `json.dumps` never produces the empty string. -/
theorem dumps_ne_nil (v : PyVal) : jsonDumpsData v ≠ [] := by
  rcases v with _ | b | n | s | items | items
  · simp [jsonDumpsData]
  · rcases b with _ | _ <;> simp [jsonDumpsData]
  · simp only [jsonDumpsData]
    unfold pyIntRepr
    split
    · simp
    · exact natDecimal_ne_nil _
  · simp [jsonDumpsData]
  · simp [jsonDumpsData]
  · simp [jsonDumpsData]

/-- A decimal digit is neither a bracket nor a brace. -/
theorem digit_ne_brackets (c : Char) (h : isDigitChar c = true) :
    c ≠ ']' ∧ c ≠ rbrace := by
  constructor <;> (rintro rfl; exact absurd h (by decide))

/-- The first character of a serialized value: non-whitespace and not a
list/dict closer. -/
theorem dumps_head (v : PyVal) : ∃ c t, jsonDumpsData v = c :: t ∧
    jsonWS c = false ∧ c ≠ ']' ∧ c ≠ rbrace := by
  rcases v with _ | b | n | s | items | items
  · exact ⟨'n', _, rfl, by decide, by decide, by decide⟩
  · rcases b with _ | _
    · exact ⟨'f', _, rfl, by decide, by decide, by decide⟩
    · exact ⟨'t', _, rfl, by decide, by decide, by decide⟩
  · simp only [jsonDumpsData]
    unfold pyIntRepr
    split
    · exact ⟨'-', _, rfl, by decide, by decide, by decide⟩
    · obtain ⟨c, t, hct⟩ := List.exists_cons_of_ne_nil (natDecimal_ne_nil n.toNat)
      have hd : isDigitChar c = true :=
        natDecimal_digits n.toNat c (hct ▸ List.mem_cons_self c t)
      obtain ⟨h1, h2⟩ := digit_ne_brackets c hd
      exact ⟨c, t, hct, (digit_not_special c hd).1, h1, h2⟩
  · exact ⟨'"', _, rfl, by decide, by decide, by decide⟩
  · exact ⟨'[', _, rfl, by decide, by decide, by decide⟩
  · exact ⟨lbrace, _, rfl, by decide, by decide, by decide⟩

/-- Serialized list items followed by the closing bracket decompose as the
first item followed by the list-tail representation. -/
theorem items_decomp : ∀ (vs : List PyVal) (v : PyVal) (r : List Char),
    jsonDumpsItems (v :: vs) ++ ']' :: r = jsonDumpsData v ++ listTailRep vs r := by
  intro vs
  induction vs with
  | nil =>
    intro v r
    simp [jsonDumpsItems, listTailRep]
  | cons w ws ih =>
    intro v r
    show jsonDumpsItems (v :: w :: ws) ++ ']' :: r = _
    rw [show jsonDumpsItems (v :: w :: ws) =
      jsonDumpsData v ++ ',' :: ' ' :: jsonDumpsItems (w :: ws) from rfl]
    rw [List.append_assoc, List.cons_append, List.cons_append, ih w r]
    rfl

/-- Serialized dict entries followed by the closing brace decompose as the
first entry's representation over the dict-tail representation. -/
theorem entries_decomp : ∀ (kvs : List (PyKey × PyVal)) (kv : PyKey × PyVal)
    (r : List Char),
    jsonDumpsEntries (kv :: kvs) ++ rbrace :: r = kvRep kv (dictTailRep kvs r) := by
  intro kvs
  induction kvs with
  | nil =>
    intro kv r
    rcases kv with ⟨k, v⟩
    show (jsonDumpsKey k ++ ':' :: ' ' :: jsonDumpsData v) ++ rbrace :: r = _
    rw [List.append_assoc]
    rfl
  | cons kv2 kvs' ih =>
    intro kv r
    rcases kv with ⟨k, v⟩
    have h1 : jsonDumpsEntries ((k, v) :: kv2 :: kvs') ++ rbrace :: r =
        jsonDumpsKey k ++ ':' :: ' ' :: (jsonDumpsData v ++ (',' :: ' ' ::
          (jsonDumpsEntries (kv2 :: kvs') ++ rbrace :: r))) := by
      simp [show jsonDumpsEntries ((k, v) :: kv2 :: kvs') =
        jsonDumpsKey k ++ ':' :: ' ' :: jsonDumpsData v ++ ',' :: ' ' ::
        jsonDumpsEntries (kv2 :: kvs') from rfl, List.append_assoc]
    rw [h1, ih kv2 r]
    rfl

/-- Hex digit characters are ASCII. -/
theorem hexDigitChar_ascii : ∀ d, d < 16 → (hexDigitChar d).toNat < 128 := by decide

/-- The characters of `toHex4` are ASCII. -/
theorem toHex4_ascii (n : Nat) : ∀ c ∈ toHex4 n, c.toNat < 128 := by
  intro c hc
  unfold toHex4 at hc
  simp only [List.mem_cons, List.not_mem_nil, or_false] at hc
  rcases hc with rfl | rfl | rfl | rfl <;> exact hexDigitChar_ascii _ (by omega)

/-- Escapes produce only ASCII characters. -/
theorem escapeChar_ascii (c0 : Char) : ∀ c ∈ escapeChar c0, c.toNat < 128 := by
  intro c hc
  unfold escapeChar at hc
  split_ifs at hc with h1 h2 h3 h4 h5 h6 h7 h8 h9
  · simp only [List.mem_cons, List.not_mem_nil, or_false] at hc
    rcases hc with rfl | rfl <;> decide
  · simp only [List.mem_cons, List.not_mem_nil, or_false] at hc
    rcases hc with rfl | rfl <;> decide
  · simp only [List.mem_cons, List.not_mem_nil, or_false] at hc
    rcases hc with rfl | rfl <;> decide
  · simp only [List.mem_cons, List.not_mem_nil, or_false] at hc
    rcases hc with rfl | rfl <;> decide
  · simp only [List.mem_cons, List.not_mem_nil, or_false] at hc
    rcases hc with rfl | rfl <;> decide
  · simp only [List.mem_cons, List.not_mem_nil, or_false] at hc
    rcases hc with rfl | rfl <;> decide
  · simp only [List.mem_cons, List.not_mem_nil, or_false] at hc
    rcases hc with rfl | rfl <;> decide
  · simp only [List.mem_cons] at hc
    rcases hc with rfl | rfl | hc'
    · decide
    · decide
    · exact toHex4_ascii _ c hc'
  · rcases List.mem_append.mp hc with hc' | hc' <;>
      (simp only [List.mem_cons] at hc';
       rcases hc' with rfl | rfl | hc'')
    · decide
    · decide
    · exact toHex4_ascii _ c hc''
    · decide
    · decide
    · exact toHex4_ascii _ c hc''
  · simp only [List.mem_cons, List.not_mem_nil, or_false] at hc
    subst hc
    omega

/-- Escaped string bodies are ASCII. -/
theorem escapeString_ascii (l : List Char) : ∀ c ∈ escapeString l, c.toNat < 128 := by
  induction l with
  | nil => intro c hc; cases hc
  | cons x xs ih =>
    intro c hc
    rw [escapeString_cons] at hc
    rcases List.mem_append.mp hc with h | h
    · exact escapeChar_ascii x c h
    · exact ih c h

/-- Serialized integers are ASCII. -/
theorem pyIntRepr_ascii (n : Int) : ∀ c ∈ pyIntRepr n, c.toNat < 128 := by
  intro c hc
  have hdig : ∀ m : Nat, ∀ d ∈ natDecimal m, d.toNat < 128 := by
    intro m d hd
    have := natDecimal_digits m d hd
    simp [isDigitChar] at this
    omega
  unfold pyIntRepr at hc
  split_ifs at hc
  · simp only [List.mem_cons] at hc
    rcases hc with rfl | hc'
    · decide
    · exact hdig _ c hc'
  · exact hdig _ c hc

/-- Serialized dict keys are ASCII. -/
theorem jsonDumpsKey_ascii (k : PyKey) : ∀ c ∈ jsonDumpsKey k, c.toNat < 128 := by
  intro c hc
  rcases k with s | n <;> simp only [jsonDumpsKey, List.mem_cons] at hc <;>
    (rcases hc with rfl | hc'
     case inl => decide)
  · rcases List.mem_append.mp hc' with h | h
    · exact escapeString_ascii _ c h
    · simp only [List.mem_cons, List.not_mem_nil, or_false] at h
      subst h
      decide
  · rcases List.mem_append.mp hc' with h | h
    · exact escapeString_ascii _ c h
    · simp only [List.mem_cons, List.not_mem_nil, or_false] at h
      subst h
      decide

/-- Everything `json.dumps` emits is ASCII (`ensure_ascii=True`). -/
theorem dumps_ascii :
    (∀ v : PyVal, ∀ c ∈ jsonDumpsData v, c.toNat < 128) ∧
    (∀ items : List (PyKey × PyVal), ∀ c ∈ jsonDumpsEntries items, c.toNat < 128) ∧
    (∀ items : List PyVal, ∀ c ∈ jsonDumpsItems items, c.toNat < 128) := by
  refine @jsonDumpsData.mutual_induct
    (fun v => ∀ c ∈ jsonDumpsData v, c.toNat < 128)
    (fun items => ∀ c ∈ jsonDumpsEntries items, c.toNat < 128)
    (fun items => ∀ c ∈ jsonDumpsItems items, c.toNat < 128)
    ?_ ?_ ?_ ?_ ?_ ?_ ?_ ?_ ?_ ?_ ?_ ?_ ?_
  · intro c hc
    simp only [jsonDumpsData, List.mem_cons, List.not_mem_nil, or_false] at hc
    rcases hc with rfl | rfl | rfl | rfl <;> decide
  · intro c hc
    simp only [jsonDumpsData, List.mem_cons, List.not_mem_nil, or_false] at hc
    rcases hc with rfl | rfl | rfl | rfl <;> decide
  · intro c hc
    simp only [jsonDumpsData, List.mem_cons, List.not_mem_nil, or_false] at hc
    rcases hc with rfl | rfl | rfl | rfl | rfl <;> decide
  · intro n c hc
    simp only [jsonDumpsData] at hc
    exact pyIntRepr_ascii n c hc
  · intro s c hc
    simp only [jsonDumpsData, List.mem_cons] at hc
    rcases hc with rfl | hc'
    · decide
    · rcases List.mem_append.mp hc' with h | h
      · exact escapeString_ascii _ c h
      · simp only [List.mem_cons, List.not_mem_nil, or_false] at h
        subst h
        decide
  · intro items ih c hc
    simp only [jsonDumpsData, List.mem_cons] at hc
    rcases hc with rfl | hc'
    · decide
    · rcases List.mem_append.mp hc' with h | h
      · exact ih c h
      · simp only [List.mem_cons, List.not_mem_nil, or_false] at h
        subst h
        decide
  · intro items ih c hc
    simp only [jsonDumpsData, List.mem_cons] at hc
    rcases hc with rfl | hc'
    · decide
    · rcases List.mem_append.mp hc' with h | h
      · exact ih c h
      · simp only [List.mem_cons, List.not_mem_nil, or_false] at h
        subst h
        decide
  · intro c hc
    cases hc
  · intro v ih c hc
    exact ih c hc
  · intro v rest hne ih1 ih2 c hc
    rcases rest with _ | ⟨w, ws⟩
    · exact absurd rfl hne
    simp only [jsonDumpsItems] at hc
    rcases List.mem_append.mp hc with h | h
    · exact ih1 c h
    · simp only [List.mem_cons] at h
      rcases h with rfl | rfl | h'
      · decide
      · decide
      · exact ih2 c h'
  · intro c hc
    cases hc
  · intro k v ih c hc
    simp only [jsonDumpsEntries] at hc
    rcases List.mem_append.mp hc with h | h
    · exact jsonDumpsKey_ascii k c h
    · simp only [List.mem_cons] at h
      rcases h with rfl | rfl | h'
      · decide
      · decide
      · exact ih c h'
  · intro k v rest hne ih1 ih2 c hc
    rcases rest with _ | ⟨kv2, kvs⟩
    · exact absurd rfl hne
    simp only [jsonDumpsEntries] at hc
    rcases List.mem_append.mp hc with h | h
    · rcases List.mem_append.mp h with h' | h'
      · exact jsonDumpsKey_ascii k c h'
      · simp only [List.mem_cons] at h'
        rcases h' with rfl | rfl | h2
        · decide
        · decide
        · exact ih1 c h2
    · simp only [List.mem_cons] at h
      rcases h with rfl | rfl | h2
      · decide
      · decide
      · exact ih2 c h2


/-- `String.mk` of a string's data gives back the string. -/
theorem string_mk_data (s : String) : String.mk s.data = s := rfl

/-- A serialized dict key starts with a quote. -/
theorem jsonDumpsKey_head (k : PyKey) : ∃ t, jsonDumpsKey k = '"' :: t := by
  rcases k with s | n <;> exact ⟨_, rfl⟩

/-- Serialized dict keys are nonempty. -/
theorem jsonDumpsKey_length_pos (k : PyKey) : 0 < (jsonDumpsKey k).length := by
  obtain ⟨t, ht⟩ := jsonDumpsKey_head k
  rw [ht]
  simp

/-- Serialized values are nonempty. -/
theorem dumps_length_pos (v : PyVal) : 0 < (jsonDumpsData v).length :=
  List.length_pos.mpr (dumps_ne_nil v)

/-- Length of one serialized dict entry. -/
theorem kvRep_length (kv : PyKey × PyVal) (r : List Char) :
    (kvRep kv r).length =
      (jsonDumpsKey kv.1).length + (jsonDumpsData kv.2).length + r.length + 2 := by
  simp only [kvRep, List.length_append, List.length_cons]
  omega

set_option maxHeartbeats 1000000 in
/-- Round trip of the modelled `json.dumps` through the decoder, for values
whose dict keys are all strings: the fueled parsers recover the value and
leave the remainder untouched, provided the remainder cannot extend a number
and the fuel covers the input. -/
theorem parse_dumps : ∀ fuel : Nat,
    (∀ (v : PyVal) (r : List Char), strKeyedB v = true → numStop r →
      (jsonDumpsData v ++ r).length ≤ fuel →
      parseValue fuel (jsonDumpsData v ++ r) = some (v, r)) ∧
    (∀ (kvs : List (PyKey × PyVal)) (r : List Char), strKeyedEntries kvs = true →
      numStop r → (dictTailRep kvs r).length ≤ fuel →
      parseDictTail fuel (dictTailRep kvs r) = some (kvs, r)) ∧
    (∀ (vs : List PyVal) (r : List Char), strKeyedItems vs = true → numStop r →
      (listTailRep vs r).length ≤ fuel →
      parseListTail fuel (listTailRep vs r) = some (vs, r)) ∧
    (∀ (k : PyKey) (v : PyVal) (r : List Char), isStrKey k = true → strKeyedB v = true →
      numStop r → (kvRep (k, v) r).length ≤ fuel →
      parseKV fuel (kvRep (k, v) r) = some ((k, v), r)) := by
  intro fuel
  induction fuel with
  | zero =>
    refine ⟨?_, ?_, ?_, ?_⟩
    · intro v r _ _ hlen
      exfalso
      have h1 := dumps_length_pos v
      simp only [List.length_append, Nat.le_zero] at hlen
      omega
    · intro kvs r _ _ hlen
      exfalso
      rcases kvs with _ | ⟨kv, kvs'⟩ <;> simp [dictTailRep] at hlen
    · intro vs r _ _ hlen
      exfalso
      rcases vs with _ | ⟨v, vs'⟩ <;> simp [listTailRep] at hlen
    · intro k v r _ _ _ hlen
      exfalso
      have h1 := jsonDumpsKey_length_pos k
      rw [kvRep_length, Nat.le_zero] at hlen
      omega
  | succ fuel ih =>
    obtain ⟨ih1, ih2, ih3, ih4⟩ := ih
    refine ⟨?_, ?_, ?_, ?_⟩
    · -- parseValue on a serialized value
      intro v r hkey hstop hlen
      rcases v with _ | b | n | s | items | items
      · -- PyVal.none
        simp only [jsonDumpsData, List.cons_append, List.nil_append]
        simp only [parseValue]
        rw [skipWS_cons_of 'n' _ (by decide)]
        rfl
      · -- PyVal.bool
        rcases b with _ | _
        · simp only [jsonDumpsData, List.cons_append, List.nil_append]
          simp only [parseValue]
          rw [skipWS_cons_of 'f' _ (by decide)]
          rfl
        · simp only [jsonDumpsData, List.cons_append, List.nil_append]
          simp only [parseValue]
          rw [skipWS_cons_of 't' _ (by decide)]
          rfl
      · -- PyVal.int
        simp only [jsonDumpsData]
        by_cases hneg : n < 0
        · have hrep : pyIntRepr n = '-' :: natDecimal (-n).toNat := by
            unfold pyIntRepr
            rw [if_pos hneg]
          rw [hrep]
          simp only [List.cons_append]
          simp only [parseValue]
          rw [skipWS_cons_of '-' _ (by decide)]
          dsimp only
          rw [if_neg (show ¬('-' : Char) = 'n' by decide),
            if_neg (show ¬('-' : Char) = 't' by decide),
            if_neg (show ¬('-' : Char) = 'f' by decide),
            if_neg (show ¬('-' : Char) = '"' by decide),
            if_neg (show ¬('-' : Char) = '[' by decide),
            if_neg (show ¬('-' : Char) = lbrace by decide),
            if_pos rfl]
          rw [parseNumTail_natDecimal _ r hstop]
          dsimp only [Option.map_some']
          rw [show ((-n).toNat : Int) = -n from Int.toNat_of_nonneg (by omega)]
          rw [neg_neg]
        · have hrep : pyIntRepr n = natDecimal n.toNat := by
            unfold pyIntRepr
            rw [if_neg hneg]
          rw [hrep]
          obtain ⟨c0, t0, hct⟩ := List.exists_cons_of_ne_nil (natDecimal_ne_nil n.toNat)
          have hd : isDigitChar c0 = true :=
            natDecimal_digits _ c0 (hct ▸ List.mem_cons_self c0 t0)
          obtain ⟨hws, hn1, hn2, hn3, hn4, hn5, hn6, hn7⟩ := digit_not_special c0 hd
          rw [hct]
          simp only [List.cons_append]
          simp only [parseValue]
          rw [skipWS_cons_of c0 _ hws]
          dsimp only
          rw [if_neg hn1, if_neg hn2, if_neg hn3, if_neg hn4, if_neg hn5, if_neg hn6,
            if_neg hn7]
          rw [show c0 :: (t0 ++ r) = (c0 :: t0) ++ r from rfl, ← hct]
          rw [parseNumTail_natDecimal _ r hstop]
          dsimp only [Option.map_some']
          rw [show (n.toNat : Int) = n from Int.toNat_of_nonneg (by omega)]
      · -- PyVal.str
        simp only [jsonDumpsData]
        rw [show ('"' :: (escapeString s.data ++ ['"'])) ++ r =
          '"' :: (escapeString s.data ++ '"' :: r) from by simp]
        simp only [parseValue]
        rw [skipWS_cons_of '"' _ (by decide)]
        dsimp only
        rw [if_neg (show ¬('"' : Char) = 'n' by decide),
          if_neg (show ¬('"' : Char) = 't' by decide),
          if_neg (show ¬('"' : Char) = 'f' by decide),
          if_pos rfl]
        have hbound : (escapeString s.data).length <
            (escapeString s.data ++ '"' :: r).length + 1 := by
          simp only [List.length_append, List.length_cons]
          omega
        rw [parseStrBody_escape s.data r _ hbound]
        simp
      · -- PyVal.list
        have hkv : strKeyedB (PyVal.list items) = strKeyedItems items := rfl
        rw [hkv] at hkey
        simp only [jsonDumpsData] at hlen ⊢
        rw [show ('[' :: (jsonDumpsItems items ++ [']'])) ++ r =
          '[' :: (jsonDumpsItems items ++ ']' :: r) from by simp]
        simp only [parseValue]
        rw [skipWS_cons_of '[' _ (by decide)]
        dsimp only
        rw [if_neg (show ¬('[' : Char) = 'n' by decide),
          if_neg (show ¬('[' : Char) = 't' by decide),
          if_neg (show ¬('[' : Char) = 'f' by decide),
          if_neg (show ¬('[' : Char) = '"' by decide),
          if_pos rfl]
        rcases items with _ | ⟨v1, vs⟩
        · simp only [jsonDumpsItems, List.nil_append]
          rw [skipWS_cons_of ']' _ (by decide)]
          rfl
        · have hkey' : (strKeyedB v1 && strKeyedItems vs) = true := hkey
          rw [Bool.and_eq_true] at hkey'
          have hpair := hkey'
          have hlen1 := congrArg List.length (items_decomp vs v1 r)
          have hpos := dumps_length_pos v1
          simp only [List.length_append, List.length_cons] at hlen hlen1
          have hb1 : (jsonDumpsData v1 ++ listTailRep vs r).length ≤ fuel := by
            simp only [List.length_append]
            omega
          have hb2 : (listTailRep vs r).length ≤ fuel := by
            simp only [List.length_append] at hb1
            omega
          rw [items_decomp vs v1 r]
          obtain ⟨c0, t0, hct, hws0, hne1, _⟩ := dumps_head v1
          rw [show jsonDumpsData v1 ++ listTailRep vs r =
            c0 :: (t0 ++ listTailRep vs r) from by rw [hct]; rfl]
          rw [skipWS_cons_of c0 _ hws0]
          dsimp only
          rw [if_neg hne1]
          rw [show c0 :: (t0 ++ listTailRep vs r) =
            jsonDumpsData v1 ++ listTailRep vs r from by rw [hct]; rfl]
          rw [ih1 v1 (listTailRep vs r) hpair.1 (numStop_listTailRep vs r) hb1]
          dsimp only
          rw [ih3 vs r hpair.2 hstop hb2]
          rfl
      · -- PyVal.dict
        have hkv : strKeyedB (PyVal.dict items) = strKeyedEntries items := rfl
        rw [hkv] at hkey
        simp only [jsonDumpsData] at hlen ⊢
        rw [show (lbrace :: (jsonDumpsEntries items ++ [rbrace])) ++ r =
          lbrace :: (jsonDumpsEntries items ++ rbrace :: r) from by simp]
        simp only [parseValue]
        rw [skipWS_cons_of lbrace _ (by decide)]
        dsimp only
        rw [if_neg (show ¬lbrace = 'n' by decide),
          if_neg (show ¬lbrace = 't' by decide),
          if_neg (show ¬lbrace = 'f' by decide),
          if_neg (show ¬lbrace = '"' by decide),
          if_neg (show ¬lbrace = '[' by decide),
          if_pos rfl]
        rcases items with _ | ⟨⟨k, v⟩, kvs⟩
        · simp only [jsonDumpsEntries, List.nil_append]
          rw [skipWS_cons_of rbrace _ (by decide)]
          rfl
        · have htrip : (isStrKey k && strKeyedB v && strKeyedEntries kvs) = true := hkey
          rw [Bool.and_eq_true, Bool.and_eq_true] at htrip
          obtain ⟨⟨hk, hb⟩, hkvs⟩ := htrip
          have hlen1 := congrArg List.length (entries_decomp kvs (k, v) r)
          rw [kvRep_length] at hlen1
          dsimp only at hlen1
          have hkpos := jsonDumpsKey_length_pos k
          simp only [List.length_append, List.length_cons, List.length_nil]
            at hlen hlen1
          have hbK : (kvRep (k, v) (dictTailRep kvs r)).length ≤ fuel := by
            rw [kvRep_length]
            dsimp only
            omega
          have hbD : (dictTailRep kvs r).length ≤ fuel := by
            omega
          rw [entries_decomp kvs (k, v) r]
          obtain ⟨kt, hkt⟩ := jsonDumpsKey_head k
          rw [show kvRep (k, v) (dictTailRep kvs r) =
            '"' :: (kt ++ ':' :: ' ' :: (jsonDumpsData v ++ dictTailRep kvs r)) from by
              simp [kvRep, hkt]]
          rw [skipWS_cons_of '"' _ (by decide)]
          dsimp only
          rw [if_neg (show ¬('"' : Char) = rbrace by decide)]
          rw [show '"' :: (kt ++ ':' :: ' ' :: (jsonDumpsData v ++ dictTailRep kvs r)) =
            kvRep (k, v) (dictTailRep kvs r) from by simp [kvRep, hkt]]
          rw [ih4 k v (dictTailRep kvs r) hk hb (numStop_dictTailRep kvs r) hbK]
          dsimp only
          rw [ih2 kvs r hkvs hstop hbD]
          rfl
    · -- parseDictTail on a serialized dict tail
      intro kvs r hkeys hstop hlen
      rcases kvs with _ | ⟨⟨k, v⟩, kvs'⟩
      · show parseDictTail (fuel + 1) (rbrace :: r) = some ([], r)
        simp only [parseDictTail]
        rw [skipWS_cons_of rbrace _ (by decide)]
        rfl
      · have htrip : (isStrKey k && strKeyedB v && strKeyedEntries kvs') = true := hkeys
        rw [Bool.and_eq_true, Bool.and_eq_true] at htrip
        obtain ⟨⟨hk, hb⟩, hkvs⟩ := htrip
        have hexp : (dictTailRep ((k, v) :: kvs') r).length =
            2 + (kvRep (k, v) (dictTailRep kvs' r)).length := by
          simp only [dictTailRep, List.foldr_cons, List.length_cons]
          omega
        rw [hexp, kvRep_length] at hlen
        dsimp only at hlen
        have hkpos := jsonDumpsKey_length_pos k
        have hbK : (kvRep (k, v) (dictTailRep kvs' r)).length ≤ fuel := by
          rw [kvRep_length]
          dsimp only
          omega
        have hbD : (dictTailRep kvs' r).length ≤ fuel := by
          omega
        show parseDictTail (fuel + 1)
          (',' :: ' ' :: kvRep (k, v) (dictTailRep kvs' r)) = some ((k, v) :: kvs', r)
        simp only [parseDictTail]
        rw [skipWS_cons_of ',' _ (by decide)]
        dsimp only
        rw [if_neg (show ¬(',' : Char) = rbrace by decide), if_pos rfl]
        rw [parseKV_space]
        rw [ih4 k v (dictTailRep kvs' r) hk hb (numStop_dictTailRep kvs' r) hbK]
        dsimp only
        rw [ih2 kvs' r hkvs hstop hbD]
        rfl
    · -- parseListTail on a serialized list tail
      intro vs r hitems hstop hlen
      rcases vs with _ | ⟨v1, vs'⟩
      · show parseListTail (fuel + 1) (']' :: r) = some ([], r)
        simp only [parseListTail]
        rw [skipWS_cons_of ']' _ (by decide)]
        rfl
      · have hitems' : (strKeyedB v1 && strKeyedItems vs') = true := hitems
        rw [Bool.and_eq_true] at hitems'
        have hpair := hitems'
        have hexp : (listTailRep (v1 :: vs') r).length =
            2 + (jsonDumpsData v1 ++ listTailRep vs' r).length := by
          simp only [listTailRep, List.foldr_cons, List.length_cons]
          omega
        rw [hexp] at hlen
        have hpos := dumps_length_pos v1
        have hb1 : (jsonDumpsData v1 ++ listTailRep vs' r).length ≤ fuel := by
          omega
        have hb2 : (listTailRep vs' r).length ≤ fuel := by
          simp only [List.length_append] at hlen
          omega
        show parseListTail (fuel + 1)
          (',' :: ' ' :: (jsonDumpsData v1 ++ listTailRep vs' r)) = some (v1 :: vs', r)
        simp only [parseListTail]
        rw [skipWS_cons_of ',' _ (by decide)]
        dsimp only
        rw [if_neg (show ¬(',' : Char) = ']' by decide), if_pos rfl]
        rw [parseValue_space]
        rw [ih1 v1 (listTailRep vs' r) hpair.1 (numStop_listTailRep vs' r) hb1]
        dsimp only
        rw [ih3 vs' r hpair.2 hstop hb2]
        rfl
    · -- parseKV on a serialized entry
      intro k v r hk hv hstop hlen
      rcases k with s | n
      · rw [kvRep_length] at hlen
        dsimp only at hlen
        rw [show kvRep (PyKey.str s, v) r =
          '"' :: (escapeString s.data ++ '"' :: (':' :: ' ' :: (jsonDumpsData v ++ r)))
          from by simp [kvRep, jsonDumpsKey]]
        simp only [parseKV]
        rw [skipWS_cons_of '"' _ (by decide)]
        dsimp only
        rw [if_pos rfl]
        have hbound : (escapeString s.data).length <
            (escapeString s.data ++
              '"' :: ':' :: ' ' :: (jsonDumpsData v ++ r)).length + 1 := by
          simp only [List.length_append, List.length_cons]
          omega
        rw [parseStrBody_escape s.data (':' :: ' ' :: (jsonDumpsData v ++ r)) _ hbound]
        dsimp only
        rw [skipWS_cons_of ':' _ (by decide)]
        dsimp only
        rw [if_pos rfl]
        rw [parseValue_space]
        have hbv : (jsonDumpsData v ++ r).length ≤ fuel := by
          simp only [List.length_append]
          omega
        rw [ih1 v r hv hstop hbv]
        simp
      · simp [isStrKey] at hk



/-- `json.loads` inverts the modelled `json.dumps` on values whose dict keys
are all strings. -/
theorem json_loads_dumps (v : PyVal) (h : strKeyedB v = true) :
    json_loads (json_dumps v) = some v := by
  have hp := (parse_dumps ((jsonDumpsData v).length + 1)).1 v [] h numStop_nil
    (by rw [List.append_nil]; exact Nat.le_succ _)
  rw [List.append_nil] at hp
  unfold json_loads json_dumps
  rw [show (String.mk (jsonDumpsData v)).data = jsonDumpsData v from rfl]
  rw [hp]
  rfl

/-- Every byte produced by UTF-8-encoding a serialized value is a byte. -/
theorem dumps_bytes (v : PyVal) :
    ∀ x ∈ utf8AsciiEncode (json_dumps v).data, x < 256 := by
  intro x hx
  unfold utf8AsciiEncode at hx
  simp only [List.mem_map] at hx
  obtain ⟨c, hc, rfl⟩ := hx
  have h128 := dumps_ascii.1 v c hc
  omega

/-- C10 counterexample: `json.dumps` coerces the int dict key `1` to the
string key `"1"`, so two distinct status data values serialize (and hence
compress and encode) to the same blob, and no decoder can map that blob back
to both of them: the claimed round trip fails on int-keyed dicts. -/
theorem zip_roundtrip_counterexample :
    json_zipToStr (PyVal.dict [(PyKey.int 1, PyVal.str "a")]) =
      json_zipToStr (PyVal.dict [(PyKey.str "1", PyVal.str "a")]) ∧
    PyVal.dict [(PyKey.int 1, PyVal.str "a")] ≠
      PyVal.dict [(PyKey.str "1", PyVal.str "a")] := by
  constructor
  · rfl
  · simp

/-- C10 (amended): for every status data value whose dict keys are all
strings, the encode pipeline of `json_zipToStr` (serialize, compress,
base64-encode) is inverted exactly by the decode pipeline (base64-decode,
decompress, JSON-parse), recovering the original value. -/
theorem zip_unzip_roundtrip (v : PyVal) (h : strKeyedB v = true) :
    unzipStrToJson (json_zipToStr v) = some v := by
  unfold unzipStrToJson json_zipToStr
  rw [show (String.mk (b64encode (zlibCompress
    (utf8AsciiEncode (json_dumps v).data)))).data =
    b64encode (zlibCompress (utf8AsciiEncode (json_dumps v).data)) from rfl]
  rw [show zlibCompress (utf8AsciiEncode (json_dumps v).data) =
    utf8AsciiEncode (json_dumps v).data from rfl]
  rw [b64_roundtrip _ (dumps_bytes v)]
  dsimp only
  rw [show zlibDecompress (utf8AsciiEncode (json_dumps v).data) =
    utf8AsciiEncode (json_dumps v).data from rfl]
  rw [utf8_roundtrip]
  rw [string_mk_data]
  exact json_loads_dumps v h

/-- Witness: the round trip evaluated on a concrete nested status value. -/
theorem zip_unzip_roundtrip_witness :
    strKeyedB (PyVal.dict [(PyKey.str "jobOperation",
      PyVal.list [PyVal.int (-3), PyVal.none, PyVal.str "ok",
        PyVal.bool true])]) = true ∧
    unzipStrToJson (json_zipToStr (PyVal.dict [(PyKey.str "jobOperation",
      PyVal.list [PyVal.int (-3), PyVal.none, PyVal.str "ok",
        PyVal.bool true])])) =
      some (PyVal.dict [(PyKey.str "jobOperation",
        PyVal.list [PyVal.int (-3), PyVal.none, PyVal.str "ok",
          PyVal.bool true])]) :=
  ⟨by decide, zip_unzip_roundtrip _ (by decide)⟩


end ChrisManager
